import Mathlib

/-!
# Verification of the leave-request lifecycle engine

A shallow embedding of the core logic of the leave/permission request
system (`code.js`): the duration parser, the duplicate guard, the request
ledger with its three category partitions, the lifecycle operations
(submit, decide, resubmit, check-in, admin check-in, delete), the monthly
stats aggregator and the overdue-check-in escalation scanner.

Modelling conventions:
* Spreadsheet cells are strings, numbers or empty; the cell type `CellVal`
  covers strings and rational numbers (the sheet values relevant here).
  JavaScript number semantics are modelled over `ℚ` (finite decimal
  literals; IEEE specials such as `Infinity`/`NaN` are out of scope, an
  unparsable string is reported as `none`).
* Timestamps are minutes since an epoch (`Nat`); a day is 1440 minutes.
  `setHours(h, m, 0, 0)` on a date becomes `(t / 1440) * 1440 + h*60 + m`.
  Calendar month/year of a timestamp are recovered with the standard
  civil-from-days algorithm, so month/year comparisons match
  `Date.getMonth()` / `Date.getFullYear()` (UTC).
* The external blob store (`saveImageToDrive`, `saveMultipleImagesToDrive`)
  is passed in as a function `upload : data → fileName → url`; the
  spreadsheet store is the explicit `Ledger` value threaded through each
  operation.  The Haversine geofence check of `submitCheckIn`
  (floating-point trigonometry) is abstracted as a boolean input
  `withinRadius` standing for `distance ≤ CHECKIN_ALLOWED_RADIUS_METERS`.
* JavaScript truthiness of a string cell is `≠ ""`; of an optional
  timestamp cell it is `Option.isSome`; `x || y` on strings becomes
  `if x = "" then y else x`.
-/

/-- A spreadsheet cell value relevant to this system: a string or a
(finite) number.  An empty cell reads back as the empty string. -/
inductive CellVal where
  | str (s : String)
  | num (q : ℚ)
  deriving DecidableEq, Repr

/-- ASCII whitespace skipped by `parseFloat`. -/
def isWs (c : Char) : Bool :=
  c = ' ' ∨ c = '\t' ∨ c = '\n' ∨ c = '\r'

/-- Decimal digit test. -/
def isDigit (c : Char) : Bool :=
  '0' ≤ c ∧ c ≤ '9'

/-- JavaScript `String.prototype.trim`: strip leading and trailing
whitespace (ASCII whitespace suffices for the identifiers stored here). -/
def jsTrim (s : String) : String :=
  String.mk (((s.data.dropWhile isWs).reverse.dropWhile isWs).reverse)

/-- Value of a list of decimal digits. -/
def digitsToNat (l : List Char) : Nat :=
  l.foldl (fun a c => 10 * a + (c.toNat - '0'.toNat)) 0

/-- Exponent part of a decimal literal (the characters after `e`/`E`):
optional sign followed by digits; an ill-formed exponent contributes 0
(JavaScript `parseFloat` takes the longest valid prefix). -/
def readExp (t : List Char) : Int :=
  let p := match t with
    | '-' :: u => (true, u)
    | '+' :: u => (false, u)
    | _ => (false, t)
  let ds := p.2.takeWhile isDigit
  if ds.isEmpty then 0
  else if p.1 then -(digitsToNat ds : Int) else (digitsToNat ds : Int)

/-- The syntactic content of a decimal literal prefix: sign, integer
digits, fraction digits, number of fraction digits, decimal exponent. -/
structure FloatParts where
  neg : Bool
  ip : Nat
  fp : Nat
  fl : Nat
  ex : Int
  deriving DecidableEq, Repr

/-- Scanning phase of JavaScript `parseFloat`: skip leading whitespace,
optional sign, digits with an optional fraction and an optional decimal
exponent; `none` models `NaN` (no digits could be consumed). -/
def jsParseFloatParts (s : String) : Option FloatParts :=
  let cs := s.toList.dropWhile isWs
  let sgn := match cs with
    | '-' :: t => (true, t)
    | '+' :: t => (false, t)
    | _ => (false, cs)
  let ip := sgn.2.takeWhile isDigit
  let cs1 := sgn.2.dropWhile isDigit
  let fr := match cs1 with
    | '.' :: t => (t.takeWhile isDigit, t.dropWhile isDigit)
    | _ => ([], cs1)
  if ip.isEmpty ∧ fr.1.isEmpty then none
  else
    let ex : Int := match fr.2 with
      | 'e' :: t => readExp t
      | 'E' :: t => readExp t
      | _ => 0
    some ⟨sgn.1, digitsToNat ip, digitsToNat fr.1, fr.1.length, ex⟩

/-- Numeric value of a scanned decimal literal. -/
def ratOfParts (p : FloatParts) : ℚ :=
  let q := ((p.ip : ℚ) + (p.fp : ℚ) / (10 : ℚ) ^ p.fl) * (10 : ℚ) ^ p.ex
  if p.neg then -q else q

/-- Model of JavaScript `parseFloat` over `ℚ` (finite values). -/
def jsParseFloat (s : String) : Option ℚ :=
  (jsParseFloatParts s).map ratOfParts

/-- The fixed half-day token map (`dayValueMap` in the source): three Khmer
tokens, each standing for half a day. -/
def dayValueMap : List (String × ℚ) :=
  [("មួយព្រឹក", 1/2), ("មួយរសៀល", 1/2), ("ពេលយប់", 1/2)]

/-- `getNumericDayValue`: a half-day token maps to its entry in
`dayValueMap`; any other value goes through `parseFloat`, with `NaN`
normalised to `0`.  A numeric cell misses the token map (its property key
is its decimal rendering) and `parseFloat` returns it unchanged. -/
def getNumericDayValue : CellVal → ℚ
  | .num q => q
  | .str s =>
    match dayValueMap.lookup s with
    | some v => v
    | none =>
      match jsParseFloat s with
      | some q => q
      | none => 0

/-- Civil date (year, month 1–12, day 1–31) of a day count since
1970-01-01, by the standard Gregorian civil-from-days algorithm. -/
def civilFromDays (days : Nat) : Nat × Nat × Nat :=
  let z := days + 719468
  let era := z / 146097
  let doe := z % 146097
  let yoe := (doe - doe / 1460 + doe / 36524 - doe / 146096) / 365
  let y := yoe + era * 400
  let doy := doe - (365 * yoe + yoe / 4 - yoe / 100)
  let mp := (5 * doy + 2) / 153
  let d := doy - (153 * mp + 2) / 5 + 1
  let m := if mp < 10 then mp + 3 else mp - 9
  (if m ≤ 2 then y + 1 else y, m, d)

/-- Calendar year of a timestamp in minutes (`Date.getFullYear`). -/
def yearOf (t : Nat) : Nat :=
  (civilFromDays (t / 1440)).1

/-- Calendar month (1–12) of a timestamp in minutes; equality of two
`monthOf` values coincides with equality of the 0-based `Date.getMonth`. -/
def monthOf (t : Nat) : Nat :=
  (civilFromDays (t / 1440)).2.1

/-- Midnight (in minutes) of the day containing `t`: `setHours(0,0,0,0)`. -/
def dayStart (t : Nat) : Nat :=
  (t / 1440) * 1440

-- --- Sheet-name constants (the three ledger partitions) ---

def PERMISSION_SHEET_NAME : String := "ច្បាប់ចេញក្រៅ"

def LEAVE_SHEET_NAME : String := "ច្បាប់ឈប់សម្រាក"

def HOME_LEAVE_SHEET_NAME : String := "ច្បាប់ទៅផ្ទះ"

def DEFAULT_ADMIN_NAME : String := "Admin"

/-- One row of the request ledger, mirroring columns 1–21 of a leave
sheet.  Timestamp-valued cells are `Option Nat` (an empty cell is falsy);
every other cell keeps its stored string, except `startDate`/`endDate`
and `timestamp` which the system always writes as dates, and the
duration column which keeps the raw cell (`CellVal`). -/
structure Row where
  timestamp : Nat
  requestId : String
  employeeId : String
  employeeName : String
  leaveType : String
  startDate : Nat
  endDate : Nat
  dayValue : CellVal
  reason : String
  status : String
  approver : String
  selfieUrl : String
  approvalTimestamp : Option Nat
  docUrls : String
  locationLink : String
  checkInTimestamp : Option Nat
  checkInPhotoUrl : String
  checkInLocationLink : String
  notificationSent : String
  paymentReceiptUrl : String
  adminCheckinNote : String
  deriving DecidableEq, Repr

/-- The three leave categories (`ALL_LEAVE_SHEETS`), in scan order. -/
inductive Category where
  | permission
  | leave
  | homeLeave
  deriving DecidableEq, Repr

/-- Sheet name of a category. -/
def Category.sheetName : Category → String
  | .permission => PERMISSION_SHEET_NAME
  | .leave => LEAVE_SHEET_NAME
  | .homeLeave => HOME_LEAVE_SHEET_NAME

/-- The request ledger: one ordered row list per category partition. -/
structure Ledger where
  permission : List Row
  leave : List Row
  homeLeave : List Row
  deriving DecidableEq, Repr

/-- Partition of a category. -/
def Ledger.part (L : Ledger) : Category → List Row
  | .permission => L.permission
  | .leave => L.leave
  | .homeLeave => L.homeLeave

/-- Partition addressed by sheet name (`getSheetByName`). -/
def Ledger.sheetByName (L : Ledger) (name : String) : Option (List Row) :=
  if name = PERMISSION_SHEET_NAME then some L.permission
  else if name = LEAVE_SHEET_NAME then some L.leave
  else if name = HOME_LEAVE_SHEET_NAME then some L.homeLeave
  else none

/-- All rows of the ledger, in partition scan order. -/
def Ledger.allRows (L : Ledger) : List Row :=
  L.permission ++ L.leave ++ L.homeLeave

/-- All request ids stored in the ledger, in scan order. -/
def Ledger.allIds (L : Ledger) : List String :=
  L.allRows.map Row.requestId

/-- The spec's uniqueness invariant: request ids are pairwise distinct
across the whole ledger. -/
def Ledger.uniqueIds (L : Ledger) : Prop :=
  L.allIds.Nodup

-- --- First-match list helpers (a sheet scan stops at the first hit) ---

/-- First row of a partition with the given request id. -/
def findIn (rid : String) : List Row → Option Row
  | [] => none
  | r :: rs => if r.requestId = rid then some r else findIn rid rs

/-- Rewrite of the first row with the given request id; the rest of the
partition is untouched. -/
def updateFirst (rid : String) (f : Row → Row) : List Row → List Row
  | [] => []
  | r :: rs => if r.requestId = rid then f r :: rs else r :: updateFirst rid f rs

/-- Removal of the first row with the given request id (`deleteRow`). -/
def removeFirst (rid : String) : List Row → List Row
  | [] => []
  | r :: rs => if r.requestId = rid then rs else r :: removeFirst rid rs

/-- `findRequestRow`: scan the three partitions in `ALL_LEAVE_SHEETS`
order and return the first row whose request-id column matches. -/
def Ledger.findRequestRow (L : Ledger) (rid : String) : Option Row :=
  match findIn rid L.permission with
  | some r => some r
  | none =>
    match findIn rid L.leave with
    | some r => some r
    | none => findIn rid L.homeLeave

/-- Field update at the position `findRequestRow` locates: the first
matching row of the first partition (in scan order) that contains the id. -/
def Ledger.updateReq (L : Ledger) (rid : String) (f : Row → Row) : Ledger :=
  if (findIn rid L.permission).isSome then
    { L with permission := updateFirst rid f L.permission }
  else if (findIn rid L.leave).isSome then
    { L with leave := updateFirst rid f L.leave }
  else if (findIn rid L.homeLeave).isSome then
    { L with homeLeave := updateFirst rid f L.homeLeave }
  else L

/-- Row deletion at the position `findRequestRow` locates. -/
def Ledger.deleteReq (L : Ledger) (rid : String) : Ledger :=
  if (findIn rid L.permission).isSome then
    { L with permission := removeFirst rid L.permission }
  else if (findIn rid L.leave).isSome then
    { L with leave := removeFirst rid L.leave }
  else if (findIn rid L.homeLeave).isSome then
    { L with homeLeave := removeFirst rid L.homeLeave }
  else L

/-- Append a freshly submitted row at the end of a category partition. -/
def Ledger.appendRow (L : Ledger) (cat : Category) (r : Row) : Ledger :=
  match cat with
  | .permission => { L with permission := L.permission ++ [r] }
  | .leave => { L with leave := L.leave ++ [r] }
  | .homeLeave => { L with homeLeave := L.homeLeave ++ [r] }

-- --- Lifecycle operations ---

/-- Marker prefix of an inline base64 image payload. -/
def imgDataMark : String := "data:image"

/-- Opening bracket of a JSON array payload. -/
def leftBracket : String := "["

/-- `isBase64Image`: the value is an inline base64 image payload. -/
def isBase64Image (s : String) : Bool :=
  s.startsWith imgDataMark

/-- `JSON.stringify([url])` for a single freshly uploaded document URL. -/
def jsonSingle (u : String) : String :=
  leftBracket ++ "\"" ++ u ++ "\"]"

/-- Outcome of `updateRequestStatus`, one constructor per return site:
missing arguments / id not found / already processed / success. -/
inductive UpdateStatusResult where
  | missingInput
  | notFound
  | alreadyProcessed
  | success
  deriving DecidableEq, Repr

/-- The cell writes of a successful decision: the new status, the
approver display name (`approverRole || DEFAULT_ADMIN_NAME`), the
approval timestamp and — for a rejection carrying a non-empty reason —
the rejection reason into the admin-note column. -/
def decideWriter (newStatus approverRole rejectionReason : String) (now : Nat)
    (row : Row) : Row :=
  { row with
    status := newStatus
    approver := if approverRole = "" then DEFAULT_ADMIN_NAME else approverRole
    approvalTimestamp := some now
    adminCheckinNote :=
      if newStatus = "Rejected" ∧ rejectionReason ≠ "" then rejectionReason
      else row.adminCheckinNote }

/-- `updateRequestStatus` (the `decide` transition): locate the request,
reject a non-`Pending` row as already processed, otherwise apply
`decideWriter` to the located row. -/
def updateRequestStatus (rid newStatus approverRole rejectionReason : String)
    (now : Nat) (L : Ledger) : UpdateStatusResult × Ledger :=
  if rid = "" ∨ newStatus = "" then (.missingInput, L)
  else
    match L.findRequestRow rid with
    | none => (.notFound, L)
    | some r =>
      if r.status ≠ "Pending" then (.alreadyProcessed, L)
      else
        (.success, L.updateReq rid (decideWriter newStatus approverRole rejectionReason now))

/-- Outcome of `deleteLeaveRequest`. -/
inductive DeleteResult where
  | missingId
  | notFound
  | success
  deriving DecidableEq, Repr

/-- `deleteLeaveRequest`: locate the request and remove its row. -/
def deleteLeaveRequest (rid : String) (L : Ledger) : DeleteResult × Ledger :=
  if rid = "" then (.missingId, L)
  else
    match L.findRequestRow rid with
    | none => (.notFound, L)
    | some _ => (.success, L.deleteReq rid)

/-- The mutable submission payload of `updateLeaveRequest` (resubmit). -/
structure UpdateDetails where
  requestId : String
  employeeId : String
  employeeName : String
  leaveType : String
  startDate : Nat
  endDate : Nat
  numberOfDays : CellVal
  reason : String
  selfieImageData : String
  documentImageData : String
  deriving DecidableEq, Repr

/-- Outcome of `updateLeaveRequest`. -/
inductive UpdateLeaveResult where
  | missingId
  | notFound
  | success
  deriving DecidableEq, Repr

/-- The selfie value stored by a resubmit: a fresh upload for an inline
base64 payload, the supplied value (an existing URL) otherwise. -/
def resubmitSelfieUrl (upload : String → String → String) (d : UpdateDetails) : String :=
  if isBase64Image d.selfieImageData then
    upload d.selfieImageData
      ("Selfie_" ++ d.employeeId ++ "_" ++ d.requestId ++ "_updated")
  else d.selfieImageData

/-- The document value stored by a resubmit: a single inline image is
uploaded and wrapped as a one-element JSON array, a JSON array payload
goes through the multi-image store, anything else is kept as supplied. -/
def resubmitDocUrls (upload uploadMulti : String → String → String)
    (d : UpdateDetails) : String :=
  if isBase64Image d.documentImageData then
    jsonSingle (upload d.documentImageData
      ("Document_" ++ d.employeeId ++ "_" ++ d.requestId ++ "_updated_1"))
  else if d.documentImageData ≠ "" ∧ d.documentImageData.startsWith leftBracket then
    uploadMulti d.documentImageData
      ("Document_" ++ d.employeeId ++ "_" ++ d.requestId ++ "_updated")
  else d.documentImageData

/-- The cell writes of a resubmit: overwrite the mutable submission
columns, force `status = "Pending"`, clear approver, approval timestamp
and admin note (`clearContent`). -/
def resubmitWriter (upload uploadMulti : String → String → String)
    (d : UpdateDetails) (row : Row) : Row :=
  { row with
    leaveType := d.leaveType
    startDate := d.startDate
    endDate := d.endDate
    dayValue := d.numberOfDays
    reason := d.reason
    selfieUrl := resubmitSelfieUrl upload d
    docUrls := resubmitDocUrls upload uploadMulti d
    status := "Pending"
    approver := ""
    approvalTimestamp := none
    adminCheckinNote := "" }

/-- `updateLeaveRequest` (edit-and-resubmit): locate the request,
re-upload any inline image payloads through the blob store `upload` /
`uploadMulti`, overwrite the mutable submission columns, force
`status = "Pending"` and clear the approver, approval-timestamp and
admin-note columns (`clearContent`). -/
def updateLeaveRequest (upload uploadMulti : String → String → String)
    (d : UpdateDetails) (L : Ledger) : UpdateLeaveResult × Ledger :=
  if d.requestId = "" then (.missingId, L)
  else
    match L.findRequestRow d.requestId with
    | none => (.notFound, L)
    | some _ =>
      (.success, L.updateReq d.requestId (resubmitWriter upload uploadMulti d))

/-- The employee check-in payload of `submitCheckIn`. -/
structure CheckInData where
  requestId : String
  selfieData : String
  latitude : ℚ
  longitude : ℚ
  deriving DecidableEq, Repr

/-- Outcome of `submitCheckIn`, one constructor per exit: invalid
payload / missing coordinates / outside the geofence / id not found /
success. -/
inductive CheckInResult where
  | invalidData
  | locationMissing
  | tooFar
  | notFound
  | success
  deriving DecidableEq, Repr

/-- The cell writes of an employee check-in: the timestamp, the uploaded
check-in photo URL and the location link built from the coordinates;
`emp` is the employee id read back from the located row. -/
def checkInWriter (upload : String → String → String) (d : CheckInData)
    (emp : String) (now : Nat) (row : Row) : Row :=
  { row with
    checkInTimestamp := some now
    checkInPhotoUrl := upload d.selfieData ("CheckIn_" ++ emp ++ "_" ++ d.requestId)
    checkInLocationLink :=
      "https://maps.google.com/?q=" ++ toString d.latitude ++ "," ++ toString d.longitude }

/-- `submitCheckIn` (employee self check-in): validate the payload and
the geofence, locate the request and write the check-in timestamp, the
uploaded check-in photo URL and the location link.  `withinRadius`
abstracts the floating-point Haversine test
`calculateDistance(...) ≤ CHECKIN_ALLOWED_RADIUS_METERS`; a zero
coordinate is falsy in the source's location guard. -/
def submitCheckIn (upload : String → String → String) (withinRadius : Bool)
    (d : CheckInData) (now : Nat) (L : Ledger) : CheckInResult × Ledger :=
  if d.requestId = "" ∨ d.selfieData = "" then (.invalidData, L)
  else if d.latitude = 0 ∨ d.longitude = 0 then (.locationMissing, L)
  else if ¬ withinRadius then (.tooFar, L)
  else
    match L.findRequestRow d.requestId with
    | none => (.notFound, L)
    | some r =>
      (.success, L.updateReq d.requestId (checkInWriter upload d r.employeeId now))

/-- Outcome of `adminSubmitCheckIn`. -/
inductive AdminCheckInResult where
  | missingInput
  | notFound
  | success
  deriving DecidableEq, Repr

/-- The cell writes of an admin-assisted check-in: the timestamp, the
admin annotation into the admin-note column and the placeholder location
link. -/
def adminCheckInWriter (adminRole : String) (now : Nat) (row : Row) : Row :=
  { row with
    checkInTimestamp := some now
    adminCheckinNote := "Checked in by: " ++ adminRole
    checkInLocationLink := "N/A (Admin)" }

/-- `adminSubmitCheckIn`: locate the request and apply
`adminCheckInWriter` to the located row. -/
def adminSubmitCheckIn (rid adminRole : String) (now : Nat) (L : Ledger) :
    AdminCheckInResult × Ledger :=
  if rid = "" ∨ adminRole = "" then (.missingInput, L)
  else
    match L.findRequestRow rid with
    | none => (.notFound, L)
    | some _ =>
      (.success, L.updateReq rid (adminCheckInWriter adminRole now))

/-- The submission payload of `submitLeaveRequest`; the category is one
of the three configured sheets. -/
structure SubmitDetails where
  employeeId : String
  employeeName : String
  cat : Category
  startDate : Nat
  endDate : Nat
  numberOfDays : CellVal
  reason : String
  latitude : ℚ
  longitude : ℚ
  selfieImageData : String
  documentImageData : String
  paymentReceiptImageData : String
  deriving DecidableEq, Repr

/-- Outcome of `submitLeaveRequest`. -/
inductive SubmitResult where
  | invalidDetails
  | success (requestId : String)
  deriving DecidableEq, Repr

/-- The fresh request id `REQ-<creation time>` of a submission. -/
def freshRequestId (now : Nat) : String :=
  "REQ-" ++ toString now

/-- The fresh `Pending` row appended by a submission (columns 1–21),
with attachments resolved through the blob store. -/
def submitRow (upload uploadMulti : String → String → String)
    (d : SubmitDetails) (now : Nat) : Row :=
  { timestamp := now
    requestId := freshRequestId now
    employeeId := d.employeeId
    employeeName := d.employeeName
    leaveType := d.cat.sheetName
    startDate := d.startDate
    endDate := d.endDate
    dayValue := d.numberOfDays
    reason := d.reason
    status := "Pending"
    approver := ""
    selfieUrl :=
      if isBase64Image d.selfieImageData then
        upload d.selfieImageData
          ("Selfie_" ++ d.employeeId ++ "_" ++ freshRequestId now)
      else ""
    approvalTimestamp := none
    docUrls :=
      if d.documentImageData ≠ "" then
        uploadMulti d.documentImageData
          ("Document_" ++ d.employeeId ++ "_" ++ freshRequestId now)
      else ""
    locationLink :=
      if d.latitude ≠ 0 ∧ d.longitude ≠ 0 then
        "http://maps.google.com/maps?q=" ++ toString d.latitude ++ "," ++
          toString d.longitude
      else ""
    checkInTimestamp := none
    checkInPhotoUrl := ""
    checkInLocationLink := ""
    notificationSent := ""
    paymentReceiptUrl :=
      if d.paymentReceiptImageData ≠ "" then
        upload d.paymentReceiptImageData
          ("Payment_" ++ d.employeeId ++ "_" ++ freshRequestId now)
      else ""
    adminCheckinNote := "" }

/-- `submitLeaveRequest`: upload any attachments through the blob store,
then append the fresh `Pending` row at the end of the category's
partition. -/
def submitLeaveRequest (upload uploadMulti : String → String → String)
    (d : SubmitDetails) (now : Nat) (L : Ledger) : SubmitResult × Ledger :=
  if d.employeeId = "" then (.invalidDetails, L)
  else
    (.success (freshRequestId now),
      L.appendRow d.cat (submitRow upload uploadMulti d now))

-- --- Escalation scanner ---

/-- An escalation tier (the glossary's fixed per-request sequence). -/
inductive Tier where
  | halfDay1
  | halfDay2
  | overdueTime
  | overdueDay
  deriving DecidableEq, Repr

/-- The mark written to the notification-sent column for a tier. -/
def Tier.mark : Tier → String
  | .halfDay1 => "OverdueHalfDay_1"
  | .halfDay2 => "OverdueHalfDay_2"
  | .overdueTime => "OverdueTime"
  | .overdueDay => "OverdueDay"

/-- Position of a recorded mark along the tier order; an absent or
foreign mark ranks lowest. -/
def tierRank (s : String) : Nat :=
  if s = "OverdueHalfDay_1" then 1
  else if s = "OverdueHalfDay_2" then 2
  else if s = "OverdueTime" then 3
  else if s = "OverdueDay" then 4
  else 0

/-- One row of the scanner loop body of `checkForOverdueCheckIns`:
skip checked-in or non-approved rows; on the half-day track (duration
`0.5`) arm only when the approval preceded 08:31 on the start date, then
escalate `HalfDay1` after 11:30 (no mark yet) and `HalfDay2` after 14:30
(mark `HalfDay1`); on the full-day track escalate `OverdueDay` after
05:00 the next day (mark ≠ `OverdueDay`) else `OverdueTime` after 18:00
and before the next-day deadline (no mark yet).  Returns the emitted
notification tier, if any, and the row with its new mark. -/
def processOverdueRow (now : Nat) (r : Row) : Option Tier × Row :=
  if r.checkInTimestamp.isSome ∨ r.status ≠ "Approved" then (none, r)
  else
    let startMid := dayStart r.startDate
    if getNumericDayValue r.dayValue = 1/2 then
      match r.approvalTimestamp with
      | some appr =>
        if appr < startMid + 511 then
          if now > startMid + 870 ∧ r.notificationSent = "OverdueHalfDay_1" then
            (some .halfDay2, { r with notificationSent := "OverdueHalfDay_2" })
          else if now > startMid + 690 ∧ r.notificationSent = "" then
            (some .halfDay1, { r with notificationSent := "OverdueHalfDay_1" })
          else (none, r)
        else (none, r)
      | none => (none, r)
    else
      if now > startMid + 1740 ∧ r.notificationSent ≠ "OverdueDay" then
        (some .overdueDay, { r with notificationSent := "OverdueDay" })
      else if now > startMid + 1080 ∧ now < startMid + 1740 ∧ r.notificationSent = "" then
        (some .overdueTime, { r with notificationSent := "OverdueTime" })
      else (none, r)

/-- `checkForOverdueCheckIns`: sweep the `Permission` partition (the row
values are snapshotted before the loop, so rows are processed
independently); returns the list of emitted escalation notifications, in
row order, and the partition with the new marks. -/
def checkForOverdueCheckIns (now : Nat) (rows : List Row) : List Tier × List Row :=
  (rows.filterMap (fun r => (processOverdueRow now r).1),
   rows.map (fun r => (processOverdueRow now r).2))

-- --- Monthly stats aggregator ---

/-- Per-employee monthly aggregate over approved requests. -/
structure Stats where
  totalRequests : Nat
  totalDays : ℚ
  permissionCount : Nat
  leaveCount : Nat
  deriving DecidableEq, Repr

/-- Loop body of `getMonthlyLeaveStats`: a row contributes when its
trimmed employee id matches and its start date falls in the reference
month/year with status `Approved`; the duration is normalised with
`getNumericDayValue` and the per-category counters follow the row's
leave-type column. -/
def statsRow (employeeId : String) (now : Nat) (acc : Stats) (r : Row) : Stats :=
  if jsTrim r.employeeId = employeeId then
    if monthOf r.startDate = monthOf now ∧ yearOf r.startDate = yearOf now ∧
        r.status = "Approved" then
      { totalRequests := acc.totalRequests + 1
        totalDays := acc.totalDays + getNumericDayValue r.dayValue
        permissionCount :=
          acc.permissionCount + (if r.leaveType = PERMISSION_SHEET_NAME then 1 else 0)
        leaveCount :=
          acc.leaveCount + (if r.leaveType ≠ PERMISSION_SHEET_NAME ∧
            r.leaveType = LEAVE_SHEET_NAME then 1 else 0) }
    else acc
  else acc

/-- `getMonthlyLeaveStats`: fold the loop body over every partition in
scan order, starting from zeroed counters. -/
def getMonthlyLeaveStats (L : Ledger) (employeeId : String) (now : Nat) : Stats :=
  L.allRows.foldl (statsRow employeeId now) ⟨0, 0, 0, 0⟩

-- --- Duplicate guard ---

/-- Loop of `checkForDuplicateRequests` over a partition: a row with the
same trimmed employee id and the same start day is a duplicate unless a
non-empty `excludeRequestId` names it. -/
def dupScan (employeeId : String) (reqDay : Nat) (excludeRequestId : String) :
    List Row → Bool
  | [] => false
  | r :: rs =>
    if jsTrim r.employeeId = employeeId then
      if r.startDate / 1440 = reqDay then
        if excludeRequestId ≠ "" ∧ r.requestId = excludeRequestId then
          dupScan employeeId reqDay excludeRequestId rs
        else true
      else dupScan employeeId reqDay excludeRequestId rs
    else dupScan employeeId reqDay excludeRequestId rs

/-- `checkForDuplicateRequests`: scan the partition named by the leave
type for another request of the same employee on the same day; a missing
sheet yields `false`.  The optional exclude id is `""` when absent
(JavaScript `undefined` is falsy). -/
def checkForDuplicateRequests (L : Ledger) (employeeId : String) (startDate : Nat)
    (leaveType : String) (excludeRequestId : String) : Bool :=
  match L.sheetByName leaveType with
  | none => false
  | some rows => dupScan employeeId (startDate / 1440) excludeRequestId rows

-- --- The operation alphabet of the lifecycle state machine ---

/-- A decision outcome, as supplied by the approval callback. -/
inductive Outcome where
  | approved
  | rejected
  deriving DecidableEq, Repr

/-- Status string written for an outcome. -/
def Outcome.status : Outcome → String
  | .approved => "Approved"
  | .rejected => "Rejected"

/-- One engine operation on the ledger. -/
inductive Op where
  | submit (d : SubmitDetails) (now : Nat)
  | decide (rid : String) (o : Outcome) (approver reason : String) (now : Nat)
  | resubmit (d : UpdateDetails)
  | checkIn (d : CheckInData) (withinRadius : Bool) (now : Nat)
  | adminCheckIn (rid role : String) (now : Nat)
  | delete (rid : String)

/-- Effect of an operation on the ledger (result discarded), with the
blob store passed through. -/
def applyOp (upload uploadMulti : String → String → String) :
    Op → Ledger → Ledger
  | .submit d now, L => (submitLeaveRequest upload uploadMulti d now L).2
  | .decide rid o approver reason now, L =>
    (updateRequestStatus rid o.status approver reason now L).2
  | .resubmit d, L => (updateLeaveRequest upload uploadMulti d L).2
  | .checkIn d withinRadius now, L => (submitCheckIn upload withinRadius d now L).2
  | .adminCheckIn rid role now, L => (adminSubmitCheckIn rid role now L).2
  | .delete rid, L => (deleteLeaveRequest rid L).2

/-- The edit-and-resubmit operation, the one transition that re-opens a
processed request. -/
def Op.isResubmit : Op → Bool
  | .resubmit _ => true
  | _ => false

/-- Freshness of a submission's generated id: `REQ-<now>` must not
already be present (request ids are unique by construction, being minted
from the creation instant).  Every other operation is unconditional. -/
def Op.freshFor : Op → Ledger → Prop
  | .submit _ now, L => freshRequestId now ∉ L.allIds
  | _, _ => True

-- --- Lookup / update infrastructure lemmas ---

theorem findIn_isSome_iff (rid : String) (l : List Row) :
    (findIn rid l).isSome ↔ rid ∈ l.map Row.requestId := by
  induction l with
  | nil => simp [findIn]
  | cons r rs ih =>
    simp only [findIn, List.map_cons, List.mem_cons]
    by_cases hx : r.requestId = rid
    · rw [if_pos hx]
      simp [hx.symm]
    · have h2 : ¬ rid = r.requestId := fun hc => hx hc.symm
      rw [if_neg hx]
      simp [h2, ih]

theorem findIn_mem_of_some {rid : String} {l : List Row} {r : Row}
    (h : findIn rid l = some r) : rid ∈ l.map Row.requestId := by
  have hs : (findIn rid l).isSome := by simp [h]
  exact (findIn_isSome_iff rid l).1 hs

theorem findIn_eq_none_of_not_mem {rid : String} {l : List Row}
    (h : rid ∉ l.map Row.requestId) : findIn rid l = none := by
  cases hf : findIn rid l with
  | none => rfl
  | some r => exact absurd (findIn_mem_of_some hf) h

theorem findIn_updateFirst (rid2 rid : String) (f : Row → Row) (l : List Row)
    (hf : ∀ x, (f x).requestId = x.requestId) :
    findIn rid2 (updateFirst rid f l) =
      if rid2 = rid then (findIn rid l).map f else findIn rid2 l := by
  induction l with
  | nil => simp [findIn, updateFirst]
  | cons r rs ih =>
    simp only [updateFirst]
    by_cases h : r.requestId = rid
    · rw [if_pos h]
      by_cases h2 : rid2 = rid
      · have hc : (f r).requestId = rid2 := by rw [hf r, h, h2]
        simp only [findIn]
        rw [if_pos hc, if_pos h2, if_pos h]
        rfl
      · have hc : ¬ (f r).requestId = rid2 := by
          rw [hf r, h]
          exact fun he => h2 he.symm
        have hc2 : ¬ r.requestId = rid2 := by
          rw [h]
          exact fun he => h2 he.symm
        simp only [findIn]
        rw [if_neg hc, if_neg h2, if_neg hc2]
    · rw [if_neg h]
      by_cases h2 : r.requestId = rid2
      · have h3 : ¬ rid2 = rid := fun hc => h (h2.trans hc)
        simp only [findIn]
        rw [if_pos h2, if_neg h3, if_pos h2]
      · simp only [findIn]
        rw [if_neg h2, ih]
        by_cases h3 : rid2 = rid
        · rw [if_pos h3, if_pos h3, if_neg h]
        · rw [if_neg h3, if_neg h3, if_neg h2]

theorem isSome_findIn_updateFirst (rid2 rid : String) (f : Row → Row) (l : List Row)
    (hf : ∀ x, (f x).requestId = x.requestId) :
    (findIn rid2 (updateFirst rid f l)).isSome = (findIn rid2 l).isSome := by
  rw [findIn_updateFirst rid2 rid f l hf]
  by_cases h : rid2 = rid
  · subst h
    rw [if_pos rfl]
    cases findIn rid2 l <;> rfl
  · rw [if_neg h]

theorem updateFirst_eq_self {rid : String} {f : Row → Row} {l : List Row} {r : Row}
    (h : findIn rid l = some r) (hr : f r = r) : updateFirst rid f l = l := by
  induction l with
  | nil => simp [findIn] at h
  | cons x xs ih =>
    by_cases hx : x.requestId = rid
    · simp only [findIn] at h
      rw [if_pos hx] at h
      cases h
      simp only [updateFirst]
      rw [if_pos hx, hr]
    · simp only [findIn] at h
      rw [if_neg hx] at h
      simp only [updateFirst]
      rw [if_neg hx, ih h]

theorem findIn_removeFirst_ne (rid2 rid : String) (l : List Row) (h : rid2 ≠ rid) :
    findIn rid2 (removeFirst rid l) = findIn rid2 l := by
  induction l with
  | nil => simp [removeFirst]
  | cons r rs ih =>
    simp only [removeFirst]
    by_cases hx : r.requestId = rid
    · have h2 : ¬ r.requestId = rid2 := by
        rw [hx]
        exact fun hc => h hc.symm
      rw [if_pos hx]
      simp only [findIn]
      rw [if_neg h2]
    · rw [if_neg hx]
      simp only [findIn]
      by_cases h2 : r.requestId = rid2
      · rw [if_pos h2, if_pos h2]
      · rw [if_neg h2, if_neg h2, ih]

theorem findIn_removeFirst_self (rid : String) (l : List Row)
    (h : (l.map Row.requestId).Nodup) : findIn rid (removeFirst rid l) = none := by
  induction l with
  | nil => simp [removeFirst, findIn]
  | cons r rs ih =>
    simp only [List.map_cons, List.nodup_cons] at h
    simp only [removeFirst]
    by_cases hx : r.requestId = rid
    · rw [if_pos hx]
      exact findIn_eq_none_of_not_mem (hx ▸ h.1)
    · rw [if_neg hx]
      simp only [findIn]
      rw [if_neg hx]
      exact ih h.2

theorem findIn_append_ne (rid : String) (l : List Row) (r0 : Row)
    (h : r0.requestId ≠ rid) : findIn rid (l ++ [r0]) = findIn rid l := by
  induction l with
  | nil => simp [findIn, h]
  | cons r rs ih =>
    simp only [List.cons_append, findIn, List.append_eq]
    by_cases hx : r.requestId = rid
    · rw [if_pos hx, if_pos hx]
    · rw [if_neg hx, if_neg hx, ih]

theorem findRequestRow_mem_allIds {L : Ledger} {rid : String} {r : Row}
    (h : L.findRequestRow rid = some r) : rid ∈ L.allIds := by
  simp only [Ledger.findRequestRow] at h
  simp only [Ledger.allIds, Ledger.allRows, List.map_append, List.mem_append]
  cases hp : findIn rid L.permission with
  | some r0 => exact Or.inl (Or.inl (findIn_mem_of_some hp))
  | none =>
    rw [hp] at h
    cases hl : findIn rid L.leave with
    | some r0 => exact Or.inl (Or.inr (findIn_mem_of_some hl))
    | none =>
      rw [hl] at h
      exact Or.inr (findIn_mem_of_some h)

theorem findRequestRow_updateReq (L : Ledger) (rid2 rid : String) (f : Row → Row)
    (hf : ∀ x, (f x).requestId = x.requestId) :
    (L.updateReq rid f).findRequestRow rid2 =
      if rid2 = rid then (L.findRequestRow rid).map f else L.findRequestRow rid2 := by
  simp only [Ledger.updateReq]
  cases hp : findIn rid L.permission with
  | some rp =>
    simp only [Option.isSome_some, if_pos]
    simp only [Ledger.findRequestRow]
    rw [findIn_updateFirst rid2 rid f L.permission hf, hp]
    by_cases h2 : rid2 = rid
    · subst h2
      rw [if_pos rfl, if_pos rfl]
      rfl
    · rw [if_neg h2, if_neg h2]
  | none =>
    simp only [Option.isSome_none, Bool.false_eq_true, if_false]
    cases hl : findIn rid L.leave with
    | some rl =>
      simp only [Option.isSome_some, if_pos]
      simp only [Ledger.findRequestRow]
      rw [findIn_updateFirst rid2 rid f L.leave hf, hl]
      by_cases h2 : rid2 = rid
      · subst h2
        rw [if_pos rfl, if_pos rfl]
        simp only [hp]
        rfl
      · rw [if_neg h2, if_neg h2]
    | none =>
      simp only [Option.isSome_none, Bool.false_eq_true, if_false]
      cases hh : findIn rid L.homeLeave with
      | some rh =>
        simp only [Option.isSome_some, if_pos]
        simp only [Ledger.findRequestRow]
        rw [findIn_updateFirst rid2 rid f L.homeLeave hf, hh]
        by_cases h2 : rid2 = rid
        · subst h2
          rw [if_pos rfl, if_pos rfl]
          simp only [hp, hl]
        · rw [if_neg h2, if_neg h2]
      | none =>
        simp only [Option.isSome_none, Bool.false_eq_true, if_false]
        by_cases h2 : rid2 = rid
        · subst h2
          simp only [Ledger.findRequestRow, hp, hl, hh]
          simp
        · rw [if_neg h2]

theorem updateReq_eq_self {L : Ledger} {rid : String} {f : Row → Row} {r : Row}
    (h : L.findRequestRow rid = some r) (hr : f r = r) : L.updateReq rid f = L := by
  simp only [Ledger.updateReq]
  cases hp : findIn rid L.permission with
  | some rp =>
    have hr2 : rp = r := by
      simp only [Ledger.findRequestRow, hp] at h
      exact Option.some_inj.1 h
    subst hr2
    simp only [Option.isSome_some, if_pos]
    rw [updateFirst_eq_self hp hr]
  | none =>
    simp only [Option.isSome_none, Bool.false_eq_true, if_false]
    cases hl : findIn rid L.leave with
    | some rl =>
      have hr2 : rl = r := by
        simp only [Ledger.findRequestRow, hp, hl] at h
        exact Option.some_inj.1 h
      subst hr2
      simp only [Option.isSome_some, if_pos]
      rw [updateFirst_eq_self hl hr]
    | none =>
      simp only [Option.isSome_none, Bool.false_eq_true, if_false]
      cases hh : findIn rid L.homeLeave with
      | some rh =>
        have hr2 : rh = r := by
          simp only [Ledger.findRequestRow, hp, hl, hh] at h
          exact Option.some_inj.1 h
        subst hr2
        simp only [Option.isSome_some, if_pos]
        rw [updateFirst_eq_self hh hr]
      | none =>
        simp only [Ledger.findRequestRow, hp, hl, hh] at h
        cases h

theorem findRequestRow_appendRow (L : Ledger) (cat : Category) (r0 : Row)
    (rid : String) (h : r0.requestId ≠ rid) :
    (L.appendRow cat r0).findRequestRow rid = L.findRequestRow rid := by
  cases cat <;>
    simp only [Ledger.appendRow, Ledger.findRequestRow] <;>
    rw [findIn_append_ne rid _ r0 h]

theorem findRequestRow_deleteReq_ne (L : Ledger) (rid2 rid : String) (h : rid2 ≠ rid) :
    (L.deleteReq rid).findRequestRow rid2 = L.findRequestRow rid2 := by
  simp only [Ledger.deleteReq]
  by_cases hp : (findIn rid L.permission).isSome
  · rw [if_pos hp]
    simp only [Ledger.findRequestRow]
    rw [findIn_removeFirst_ne rid2 rid _ h]
  · rw [if_neg hp]
    by_cases hl : (findIn rid L.leave).isSome
    · rw [if_pos hl]
      simp only [Ledger.findRequestRow]
      rw [findIn_removeFirst_ne rid2 rid _ h]
    · rw [if_neg hl]
      by_cases hh : (findIn rid L.homeLeave).isSome
      · rw [if_pos hh]
        simp only [Ledger.findRequestRow]
        rw [findIn_removeFirst_ne rid2 rid _ h]
      · rw [if_neg hh]

theorem uniqueIds_parts {L : Ledger} (hU : L.uniqueIds) :
    (L.permission.map Row.requestId).Nodup ∧ (L.leave.map Row.requestId).Nodup ∧
    (L.homeLeave.map Row.requestId).Nodup ∧
    (∀ rid, rid ∈ L.permission.map Row.requestId → rid ∉ L.leave.map Row.requestId) ∧
    (∀ rid, rid ∈ L.permission.map Row.requestId → rid ∉ L.homeLeave.map Row.requestId) ∧
    (∀ rid, rid ∈ L.leave.map Row.requestId → rid ∉ L.homeLeave.map Row.requestId) := by
  simp only [Ledger.uniqueIds, Ledger.allIds, Ledger.allRows, List.map_append] at hU
  rcases List.nodup_append.1 hU with ⟨h12, h3, hd⟩
  rcases List.nodup_append.1 h12 with ⟨h1, h2, hd12⟩
  refine ⟨h1, h2, h3, ?_, ?_, ?_⟩
  · exact fun rid hmem hc => hd12 hmem hc
  · exact fun rid hmem hc => hd (List.mem_append.2 (Or.inl hmem)) hc
  · exact fun rid hmem hc => hd (List.mem_append.2 (Or.inr hmem)) hc

theorem findRequestRow_deleteReq_self (L : Ledger) (rid : String)
    (hU : L.uniqueIds) : (L.deleteReq rid).findRequestRow rid = none := by
  obtain ⟨h1, h2, h3, hd12, hd13, hd23⟩ := uniqueIds_parts hU
  simp only [Ledger.deleteReq]
  by_cases hp : (findIn rid L.permission).isSome
  · have hmem : rid ∈ L.permission.map Row.requestId := (findIn_isSome_iff rid _).1 hp
    rw [if_pos hp]
    simp only [Ledger.findRequestRow]
    rw [findIn_removeFirst_self rid _ h1,
      findIn_eq_none_of_not_mem (hd12 rid hmem),
      findIn_eq_none_of_not_mem (hd13 rid hmem)]
  · rw [if_neg hp]
    have hnp : rid ∉ L.permission.map Row.requestId := fun hc =>
      hp ((findIn_isSome_iff rid _).2 hc)
    by_cases hl : (findIn rid L.leave).isSome
    · have hmem : rid ∈ L.leave.map Row.requestId := (findIn_isSome_iff rid _).1 hl
      rw [if_pos hl]
      simp only [Ledger.findRequestRow]
      rw [findIn_removeFirst_self rid _ h2,
        findIn_eq_none_of_not_mem hnp,
        findIn_eq_none_of_not_mem (hd23 rid hmem)]
    · rw [if_neg hl]
      have hnl : rid ∉ L.leave.map Row.requestId := fun hc =>
        hl ((findIn_isSome_iff rid _).2 hc)
      by_cases hh : (findIn rid L.homeLeave).isSome
      · rw [if_pos hh]
        simp only [Ledger.findRequestRow]
        rw [findIn_removeFirst_self rid _ h3,
          findIn_eq_none_of_not_mem hnp,
          findIn_eq_none_of_not_mem hnl]
      · rw [if_neg hh]
        simp only [Ledger.findRequestRow]
        rw [findIn_eq_none_of_not_mem hnp, findIn_eq_none_of_not_mem hnl]
        exact Option.not_isSome_iff_eq_none.1 hh

-- --- C6: duration parser ---

/-- C6: for every input value, the duration parser returns `0.5` on each
of the three fixed half-day tokens; on any other string it returns the
`parseFloat` value when one exists and `0` otherwise (never an error —
the function is total by construction); a numeric cell comes back
unchanged. -/
theorem getNumericDayValue_spec :
    (getNumericDayValue (.str "មួយព្រឹក") = 1/2 ∧
     getNumericDayValue (.str "មួយរសៀល") = 1/2 ∧
     getNumericDayValue (.str "ពេលយប់") = 1/2) ∧
    (∀ s q, s ≠ "មួយព្រឹក" → s ≠ "មួយរសៀល" → s ≠ "ពេលយប់" →
      jsParseFloat s = some q → getNumericDayValue (.str s) = q) ∧
    (∀ s, s ≠ "មួយព្រឹក" → s ≠ "មួយរសៀល" → s ≠ "ពេលយប់" →
      jsParseFloat s = none → getNumericDayValue (.str s) = 0) ∧
    (∀ q, getNumericDayValue (.num q) = q) := by
  refine ⟨⟨?_, ?_, ?_⟩, ?_, ?_, ?_⟩
  · simp [getNumericDayValue, dayValueMap, List.lookup]
  · simp [getNumericDayValue, dayValueMap, List.lookup]
  · simp [getNumericDayValue, dayValueMap, List.lookup]
  · intro s q h1 h2 h3 hp
    have h1b : (s == "មួយព្រឹក") = false := beq_eq_false_iff_ne.2 h1
    have h2b : (s == "មួយរសៀល") = false := beq_eq_false_iff_ne.2 h2
    have h3b : (s == "ពេលយប់") = false := beq_eq_false_iff_ne.2 h3
    simp [getNumericDayValue, dayValueMap, List.lookup, h1b, h2b, h3b, hp]
  · intro s h1 h2 h3 hp
    have h1b : (s == "មួយព្រឹក") = false := beq_eq_false_iff_ne.2 h1
    have h2b : (s == "មួយរសៀល") = false := beq_eq_false_iff_ne.2 h2
    have h3b : (s == "ពេលយប់") = false := beq_eq_false_iff_ne.2 h3
    simp [getNumericDayValue, dayValueMap, List.lookup, h1b, h2b, h3b, hp]
  · intro q
    simp [getNumericDayValue]

theorem jsParseFloat_two_five : jsParseFloat "2.5" = some (5/2) := by
  have h : jsParseFloatParts "2.5" = some ⟨false, 2, 5, 1, 0⟩ := by decide
  rw [jsParseFloat, h]
  norm_num [ratOfParts]

theorem jsParseFloat_na : jsParseFloat "N/A" = none := by
  have h : jsParseFloatParts "N/A" = none := by decide
  rw [jsParseFloat, h]
  rfl

/-- C6 witness: the parser at concrete inputs — a numeric string, an
unparsable string. -/
theorem getNumericDayValue_spec_w :
    getNumericDayValue (.str "2.5") = 5/2 ∧ getNumericDayValue (.str "N/A") = 0 :=
  ⟨getNumericDayValue_spec.2.1 "2.5" (5/2) (by decide) (by decide) (by decide)
      jsParseFloat_two_five,
   getNumericDayValue_spec.2.2.1 "N/A" (by decide) (by decide) (by decide)
      jsParseFloat_na⟩

-- --- C5: duplicate guard ---

theorem dupScan_iff (e : String) (d : Nat) (ex : String) (l : List Row) :
    dupScan e d ex l = true ↔
      ∃ r ∈ l, jsTrim r.employeeId = e ∧ r.startDate / 1440 = d ∧
        ¬(ex ≠ "" ∧ r.requestId = ex) := by
  induction l with
  | nil => simp [dupScan]
  | cons r rs ih =>
    simp only [dupScan]
    by_cases h1 : jsTrim r.employeeId = e
    · rw [if_pos h1]
      by_cases h2 : r.startDate / 1440 = d
      · rw [if_pos h2]
        by_cases h3 : ex ≠ "" ∧ r.requestId = ex
        · rw [if_pos h3, ih]
          constructor
          · rintro ⟨x, hx, hprop⟩
            exact ⟨x, List.mem_cons_of_mem r hx, hprop⟩
          · rintro ⟨x, hx, hprop⟩
            rcases List.mem_cons.1 hx with hx | hx
            · subst hx
              exact absurd h3 hprop.2.2
            · exact ⟨x, hx, hprop⟩
        · rw [if_neg h3]
          simp only [true_iff]
          exact ⟨r, List.mem_cons_self r rs, h1, h2, h3⟩
      · rw [if_neg h2, ih]
        constructor
        · rintro ⟨x, hx, hprop⟩
          exact ⟨x, List.mem_cons_of_mem r hx, hprop⟩
        · rintro ⟨x, hx, hprop⟩
          rcases List.mem_cons.1 hx with hx | hx
          · subst hx
            exact absurd hprop.2.1 h2
          · exact ⟨x, hx, hprop⟩
    · rw [if_neg h1, ih]
      constructor
      · rintro ⟨x, hx, hprop⟩
        exact ⟨x, List.mem_cons_of_mem r hx, hprop⟩
      · rintro ⟨x, hx, hprop⟩
        rcases List.mem_cons.1 hx with hx | hx
        · subst hx
          exact absurd hprop.1 h1
        · exact ⟨x, hx, hprop⟩

theorem sheetByName_of_cat (L : Ledger) (cat : Category) :
    L.sheetByName cat.sheetName = some (L.part cat) := by
  cases cat <;> simp [Ledger.sheetByName, Category.sheetName, Ledger.part,
    PERMISSION_SHEET_NAME, LEAVE_SHEET_NAME, HOME_LEAVE_SHEET_NAME]

/-- An existing approved `Leave`-category request of employee `E123` on
2024-05-01 (epoch day 19844). -/
def dupExistingRow : Row :=
  { timestamp := 19844 * 1440 + 480
    requestId := "REQ-7"
    employeeId := "E123"
    employeeName := "Sok"
    leaveType := LEAVE_SHEET_NAME
    startDate := 19844 * 1440
    endDate := 19844 * 1440
    dayValue := .str "1"
    reason := "family"
    status := "Approved"
    approver := "Admin"
    selfieUrl := ""
    approvalTimestamp := some (19844 * 1440 + 500)
    docUrls := ""
    locationLink := ""
    checkInTimestamp := none
    checkInPhotoUrl := ""
    checkInLocationLink := ""
    notificationSent := ""
    paymentReceiptUrl := ""
    adminCheckinNote := "" }

/-- A ledger whose `Leave` partition holds `dupExistingRow`. -/
def dupLedger : Ledger :=
  { permission := [], leave := [dupExistingRow], homeLeave := [] }

/-- C5: the duplicate check reports a duplicate exactly when the named
category's partition holds a request, other than the excluded one, with
the same trimmed employee id and the same start day (dates normalized to
midnight); concretely, an existing approved `Leave` request of `E123` on
2024-05-01 flags a new same-day submission, but not when its own id is
passed as the exclude id. -/
theorem checkForDuplicateRequests_spec :
    (∀ (L : Ledger) (employeeId : String) (startDate : Nat) (cat : Category)
        (excludeRequestId : String),
      checkForDuplicateRequests L employeeId startDate cat.sheetName excludeRequestId
          = true ↔
        ∃ r ∈ L.part cat, jsTrim r.employeeId = employeeId ∧
          r.startDate / 1440 = startDate / 1440 ∧
          ¬(excludeRequestId ≠ "" ∧ r.requestId = excludeRequestId)) ∧
    checkForDuplicateRequests dupLedger "E123" (19844 * 1440 + 600)
      LEAVE_SHEET_NAME "" = true ∧
    checkForDuplicateRequests dupLedger "E123" (19844 * 1440 + 600)
      LEAVE_SHEET_NAME "REQ-7" = false := by
  have hiff : ∀ (L : Ledger) (employeeId : String) (startDate : Nat) (cat : Category)
      (excludeRequestId : String),
      checkForDuplicateRequests L employeeId startDate cat.sheetName excludeRequestId
          = true ↔
        ∃ r ∈ L.part cat, jsTrim r.employeeId = employeeId ∧
          r.startDate / 1440 = startDate / 1440 ∧
          ¬(excludeRequestId ≠ "" ∧ r.requestId = excludeRequestId) := by
    intro L employeeId startDate cat excludeRequestId
    rw [checkForDuplicateRequests, sheetByName_of_cat L cat]
    exact dupScan_iff employeeId (startDate / 1440) excludeRequestId (L.part cat)
  refine ⟨hiff, ?_, ?_⟩
  · have h := (hiff dupLedger "E123" (19844 * 1440 + 600) .leave "").2
      ⟨dupExistingRow, by simp [dupLedger, Ledger.part], by decide, by decide, by decide⟩
    exact h
  · by_contra hc
    have hc2 : checkForDuplicateRequests dupLedger "E123" (19844 * 1440 + 600)
        LEAVE_SHEET_NAME "REQ-7" = true := by
      revert hc
      cases checkForDuplicateRequests dupLedger "E123" (19844 * 1440 + 600)
        LEAVE_SHEET_NAME "REQ-7" <;> simp
    have h := (hiff dupLedger "E123" (19844 * 1440 + 600) .leave "REQ-7").1 hc2
    rcases h with ⟨r, hr, _, _, hnotex⟩
    simp only [dupLedger, Ledger.part, List.mem_singleton] at hr
    subst hr
    exact hnotex ⟨by decide, rfl⟩

-- --- C7: monthly stats aggregator ---

/-- The spec's inclusion rule for the monthly aggregate: matching trimmed
employee id, approved status, start date in the reference calendar
month/year.  Stated independently of the fold to characterize it. -/
def statsIncludedSpec (e : String) (now : Nat) (r : Row) : Prop :=
  jsTrim r.employeeId = e ∧ r.status = "Approved" ∧
    monthOf r.startDate = monthOf now ∧ yearOf r.startDate = yearOf now

instance statsIncludedSpecDec (e : String) (now : Nat) (r : Row) :
    Decidable (statsIncludedSpec e now r) :=
  inferInstanceAs (Decidable (_ ∧ _ ∧ _ ∧ _))

theorem foldl_statsRow (e : String) (now : Nat) (l : List Row) (acc : Stats) :
    l.foldl (statsRow e now) acc =
      { totalRequests := acc.totalRequests +
          (l.filter (fun r => decide (statsIncludedSpec e now r))).length
        totalDays := acc.totalDays +
          ((l.filter (fun r => decide (statsIncludedSpec e now r))).map
            (fun r => getNumericDayValue r.dayValue)).sum
        permissionCount := acc.permissionCount +
          (l.filter (fun r => decide (statsIncludedSpec e now r ∧
            r.leaveType = PERMISSION_SHEET_NAME))).length
        leaveCount := acc.leaveCount +
          (l.filter (fun r => decide (statsIncludedSpec e now r ∧
            r.leaveType = LEAVE_SHEET_NAME))).length } := by
  induction l generalizing acc with
  | nil => cases acc; simp
  | cons r rs ih =>
    have hPL : PERMISSION_SHEET_NAME ≠ LEAVE_SHEET_NAME := by decide
    rw [List.foldl_cons, ih]
    by_cases h1 : jsTrim r.employeeId = e
    · by_cases h2 : monthOf r.startDate = monthOf now ∧ yearOf r.startDate = yearOf now ∧
          r.status = "Approved"
      · have hinc : statsIncludedSpec e now r := ⟨h1, h2.2.2, h2.1, h2.2.1⟩
        simp only [statsRow, if_pos h1, if_pos h2]
        by_cases h5 : r.leaveType = PERMISSION_SHEET_NAME
        · simp [List.filter_cons, hinc, h5, hPL, Stats.mk.injEq]
          refine ⟨by omega, by ring, by omega⟩
        · by_cases h5b : r.leaveType = LEAVE_SHEET_NAME
          · have hLP : LEAVE_SHEET_NAME ≠ PERMISSION_SHEET_NAME := fun hc => hPL hc.symm
            simp [List.filter_cons, hinc, h5, h5b, hLP, Stats.mk.injEq]
            refine ⟨by omega, by ring, by omega⟩
          · simp [List.filter_cons, hinc, h5, h5b, Stats.mk.injEq]
            refine ⟨by omega, by ring⟩
      · have hninc : ¬ statsIncludedSpec e now r := fun hc => h2 ⟨hc.2.2.1, hc.2.2.2, hc.2.1⟩
        simp only [statsRow, if_pos h1, if_neg h2]
        simp [List.filter_cons, hninc]
    · have hninc : ¬ statsIncludedSpec e now r := fun hc => h1 hc.1
      simp only [statsRow, if_neg h1]
      simp [List.filter_cons, hninc]

theorem dayValue_one : getNumericDayValue (.str "1") = 1 := by
  have hl : dayValueMap.lookup "1" = none := by decide
  have hp : jsParseFloatParts "1" = some ⟨false, 1, 0, 0, 0⟩ := by decide
  simp only [getNumericDayValue, hl, jsParseFloat, hp, Option.map_some]
  norm_num [ratOfParts]

theorem dayValue_two : getNumericDayValue (.str "2") = 2 := by
  have hl : dayValueMap.lookup "2" = none := by decide
  have hp : jsParseFloatParts "2" = some ⟨false, 2, 0, 0, 0⟩ := by decide
  simp only [getNumericDayValue, hl, jsParseFloat, hp, Option.map_some]
  norm_num [ratOfParts]

theorem dayValue_morning : getNumericDayValue (.str "មួយព្រឹក") = 1/2 := rfl

/-- A quiet template row; concrete scenario rows override its fields. -/
def baseRow : Row :=
  { timestamp := 0
    requestId := "REQ-0"
    employeeId := "E0"
    employeeName := ""
    leaveType := PERMISSION_SHEET_NAME
    startDate := 0
    endDate := 0
    dayValue := .str "1"
    reason := ""
    status := "Pending"
    approver := ""
    selfieUrl := ""
    approvalTimestamp := none
    docUrls := ""
    locationLink := ""
    checkInTimestamp := none
    checkInPhotoUrl := ""
    checkInLocationLink := ""
    notificationSent := ""
    paymentReceiptUrl := ""
    adminCheckinNote := "" }

/-- Reference instant for the stats scenario: 2024-05-15 12:00. -/
def statsNow : Nat := 19858 * 1440 + 720

/-- Approved full-day Permission request of `E1` on 2024-05-01. -/
def statsR1 : Row :=
  { baseRow with
    requestId := "REQ-s1"
    employeeId := "E1"
    startDate := 19844 * 1440
    dayValue := .str "1"
    status := "Approved"
    leaveType := PERMISSION_SHEET_NAME }

/-- Approved half-day Leave request of `E1` on 2024-05-07. -/
def statsR2 : Row :=
  { baseRow with
    requestId := "REQ-s2"
    employeeId := "E1"
    startDate := 19850 * 1440
    dayValue := .str "មួយព្រឹក"
    status := "Approved"
    leaveType := LEAVE_SHEET_NAME }

/-- Approved two-day Permission request of `E1` on 2024-05-14. -/
def statsR3 : Row :=
  { baseRow with
    requestId := "REQ-s3"
    employeeId := "E1"
    startDate := 19857 * 1440
    dayValue := .str "2"
    status := "Approved"
    leaveType := PERMISSION_SHEET_NAME }

/-- Approved request of `E1` in the prior month (2024-04-15). -/
def statsR4 : Row :=
  { baseRow with
    requestId := "REQ-s4"
    employeeId := "E1"
    startDate := 19828 * 1440
    dayValue := .str "1"
    status := "Approved"
    leaveType := LEAVE_SHEET_NAME }

/-- Ledger of the stats scenario. -/
def statsLedger : Ledger :=
  { permission := [statsR1, statsR3], leave := [statsR2, statsR4], homeLeave := [] }

/-- C7: the monthly aggregate counts exactly the rows whose trimmed
employee id matches, whose status is `Approved` and whose start date
falls in the reference calendar month and year, adding one request and
the normalised duration per row and splitting the per-category counters
by the row's leave type; concretely, three qualifying May-2024 requests
with durations `1`, `0.5`, `2` yield `totalRequests = 3` and
`totalDays = 3.5` with a prior-month row excluded. -/
theorem getMonthlyLeaveStats_spec :
    (∀ (L : Ledger) (e : String) (now : Nat),
      getMonthlyLeaveStats L e now =
        { totalRequests :=
            (L.allRows.filter (fun r => decide (statsIncludedSpec e now r))).length
          totalDays :=
            ((L.allRows.filter (fun r => decide (statsIncludedSpec e now r))).map
              (fun r => getNumericDayValue r.dayValue)).sum
          permissionCount :=
            (L.allRows.filter (fun r => decide (statsIncludedSpec e now r ∧
              r.leaveType = PERMISSION_SHEET_NAME))).length
          leaveCount :=
            (L.allRows.filter (fun r => decide (statsIncludedSpec e now r ∧
              r.leaveType = LEAVE_SHEET_NAME))).length }) ∧
    getMonthlyLeaveStats statsLedger "E1" statsNow = ⟨3, 7/2, 2, 1⟩ := by
  have hmain : ∀ (L : Ledger) (e : String) (now : Nat),
      getMonthlyLeaveStats L e now =
        { totalRequests :=
            (L.allRows.filter (fun r => decide (statsIncludedSpec e now r))).length
          totalDays :=
            ((L.allRows.filter (fun r => decide (statsIncludedSpec e now r))).map
              (fun r => getNumericDayValue r.dayValue)).sum
          permissionCount :=
            (L.allRows.filter (fun r => decide (statsIncludedSpec e now r ∧
              r.leaveType = PERMISSION_SHEET_NAME))).length
          leaveCount :=
            (L.allRows.filter (fun r => decide (statsIncludedSpec e now r ∧
              r.leaveType = LEAVE_SHEET_NAME))).length } := by
    intro L e now
    rw [getMonthlyLeaveStats, foldl_statsRow]
    simp
  refine ⟨hmain, ?_⟩
  rw [hmain]
  have hf1 : statsLedger.allRows.filter
      (fun r => decide (statsIncludedSpec "E1" statsNow r)) = [statsR1, statsR3, statsR2] := by
    decide
  have hf2 : statsLedger.allRows.filter
      (fun r => decide (statsIncludedSpec "E1" statsNow r ∧
        r.leaveType = PERMISSION_SHEET_NAME)) = [statsR1, statsR3] := by
    decide
  have hf3 : statsLedger.allRows.filter
      (fun r => decide (statsIncludedSpec "E1" statsNow r ∧
        r.leaveType = LEAVE_SHEET_NAME)) = [statsR2] := by
    decide
  rw [hf1, hf2, hf3]
  simp only [List.length_cons, List.length_nil, List.map_cons, List.map_nil,
    List.sum_cons, List.sum_nil, Stats.mk.injEq]
  have hd1 : getNumericDayValue statsR1.dayValue = 1 := dayValue_one
  have hd2 : getNumericDayValue statsR2.dayValue = 1/2 := dayValue_morning
  have hd3 : getNumericDayValue statsR3.dayValue = 2 := dayValue_two
  rw [hd1, hd2, hd3]
  norm_num

-- --- C1: the decide transition (updateRequestStatus) ---

/-- A fresh Pending Leave request. -/
def pendingRow : Row :=
  { baseRow with
    requestId := "REQ-100"
    employeeId := "E9"
    leaveType := LEAVE_SHEET_NAME
    status := "Pending"
    adminCheckinNote := "" }

/-- A ledger with the single fresh Pending Leave request. -/
def pendingLedger : Ledger :=
  { permission := [], leave := [pendingRow], homeLeave := [] }

/-- C1 counterexample: the claim says a call whose request id matches no
request returns `NotFound`, but a call with an empty request id hits the
missing-argument guard instead: on the empty ledger (where no request
with id `""` exists) `updateRequestStatus` answers with the
required-fields error — a different error kind — not `NotFound`. -/
theorem updateRequestStatus_cex :
    Ledger.findRequestRow ⟨[], [], []⟩ "" = none ∧
    updateRequestStatus "" "Approved" "X" "" 0 ⟨[], [], []⟩ =
      (UpdateStatusResult.missingInput, (⟨[], [], []⟩ : Ledger)) ∧
    UpdateStatusResult.missingInput ≠ UpdateStatusResult.notFound :=
  ⟨rfl, rfl, by decide⟩

/-- C1 (amended): for every call, an empty request id or outcome string
yields the missing-input error with the ledger unchanged; otherwise an
absent id yields `NotFound` with the ledger unchanged; a located request
that is not `Pending` yields `AlreadyProcessed` with the ledger
unchanged; a located `Pending` request is written with the outcome, the
approver (falling back to the default admin name when empty), the
approval timestamp and — for a rejection carrying a non-empty reason —
the rejection reason, every other request untouched, and the call
reports success. -/
theorem updateRequestStatus_spec (L : Ledger) (rid ns approver reason : String)
    (now : Nat) :
    ((rid = "" ∨ ns = "") →
      updateRequestStatus rid ns approver reason now L = (.missingInput, L)) ∧
    (rid ≠ "" → ns ≠ "" → L.findRequestRow rid = none →
      updateRequestStatus rid ns approver reason now L = (.notFound, L)) ∧
    (∀ r, rid ≠ "" → ns ≠ "" → L.findRequestRow rid = some r → r.status ≠ "Pending" →
      updateRequestStatus rid ns approver reason now L = (.alreadyProcessed, L)) ∧
    (∀ r, rid ≠ "" → ns ≠ "" → L.findRequestRow rid = some r → r.status = "Pending" →
      (updateRequestStatus rid ns approver reason now L).1 = .success ∧
      (updateRequestStatus rid ns approver reason now L).2.findRequestRow rid =
        some { r with
          status := ns
          approver := if approver = "" then DEFAULT_ADMIN_NAME else approver
          approvalTimestamp := some now
          adminCheckinNote :=
            if ns = "Rejected" ∧ reason ≠ "" then reason else r.adminCheckinNote } ∧
      (∀ rid2, rid2 ≠ rid →
        (updateRequestStatus rid ns approver reason now L).2.findRequestRow rid2 =
          L.findRequestRow rid2)) := by
  refine ⟨?_, ?_, ?_, ?_⟩
  · intro hg
    rw [updateRequestStatus, if_pos hg]
  · intro h1 h2 hfind
    simp only [updateRequestStatus, hfind]
    rw [if_neg (by simp [h1, h2])]
  · intro r h1 h2 hfind hstat
    simp only [updateRequestStatus, hfind]
    rw [if_neg (by simp [h1, h2]), if_pos hstat]
  · intro r h1 h2 hfind hstat
    have hns : ¬ r.status ≠ "Pending" := by simp [hstat]
    have hObs : updateRequestStatus rid ns approver reason now L =
        (.success, L.updateReq rid (decideWriter ns approver reason now)) := by
      simp only [updateRequestStatus, hfind]
      rw [if_neg (by simp [h1, h2]), if_neg hns]
    have hfid : ∀ x, (decideWriter ns approver reason now x).requestId = x.requestId :=
      fun x => rfl
    refine ⟨by rw [hObs], ?_, ?_⟩
    · rw [hObs,
        findRequestRow_updateReq L rid rid (decideWriter ns approver reason now) hfid,
        if_pos rfl, hfind]
      rfl
    · intro rid2 hne
      rw [hObs,
        findRequestRow_updateReq L rid2 rid (decideWriter ns approver reason now) hfid,
        if_neg hne]

/-- C1 witness: deciding the fresh Pending request `REQ-100` as Rejected
with an empty actor writes the default admin name, the outcome, the
timestamp and the reason, and reports success. -/
theorem updateRequestStatus_spec_w :
    (updateRequestStatus "REQ-100" "Rejected" "" "late" 77 pendingLedger).1 =
      .success ∧
    (updateRequestStatus "REQ-100" "Rejected" "" "late" 77 pendingLedger).2.findRequestRow
        "REQ-100" =
      some { baseRow with
        requestId := "REQ-100"
        employeeId := "E9"
        leaveType := LEAVE_SHEET_NAME
        status := "Rejected"
        approver := DEFAULT_ADMIN_NAME
        approvalTimestamp := some 77
        adminCheckinNote := "late" } := by
  have h := (updateRequestStatus_spec pendingLedger "REQ-100" "Rejected" "" "late" 77).2.2.2
    { baseRow with
      requestId := "REQ-100"
      employeeId := "E9"
      leaveType := LEAVE_SHEET_NAME
      status := "Pending"
      adminCheckinNote := "" }
    (by decide) (by decide) (by decide) (by decide)
  exact ⟨h.1, h.2.1⟩

-- --- C8: edit-and-resubmit ---

/-- C8: for every located request, resubmit reports success and rewrites
the row — regardless of its prior state — to carry the supplied mutable
submission fields with `status = "Pending"` and cleared approver,
approval timestamp and admin note; and it is idempotent in effect: a
second call with the identical payload returns success and leaves the
stored ledger exactly as after the first call. -/
theorem updateLeaveRequest_spec (upload uploadMulti : String → String → String)
    (d : UpdateDetails) (L : Ledger) (r : Row)
    (hrid : d.requestId ≠ "") (hfind : L.findRequestRow d.requestId = some r) :
    (updateLeaveRequest upload uploadMulti d L).1 = .success ∧
    (updateLeaveRequest upload uploadMulti d L).2.findRequestRow d.requestId =
      some (resubmitWriter upload uploadMulti d r) ∧
    (resubmitWriter upload uploadMulti d r).status = "Pending" ∧
    (resubmitWriter upload uploadMulti d r).approver = "" ∧
    (resubmitWriter upload uploadMulti d r).approvalTimestamp = none ∧
    (resubmitWriter upload uploadMulti d r).adminCheckinNote = "" ∧
    (resubmitWriter upload uploadMulti d r).leaveType = d.leaveType ∧
    (resubmitWriter upload uploadMulti d r).startDate = d.startDate ∧
    (resubmitWriter upload uploadMulti d r).endDate = d.endDate ∧
    (resubmitWriter upload uploadMulti d r).dayValue = d.numberOfDays ∧
    (resubmitWriter upload uploadMulti d r).reason = d.reason ∧
    updateLeaveRequest upload uploadMulti d (updateLeaveRequest upload uploadMulti d L).2 =
      (.success, (updateLeaveRequest upload uploadMulti d L).2) := by
  have hfid : ∀ x, (resubmitWriter upload uploadMulti d x).requestId = x.requestId :=
    fun x => rfl
  have hObs : updateLeaveRequest upload uploadMulti d L =
      (.success, L.updateReq d.requestId (resubmitWriter upload uploadMulti d)) := by
    simp only [updateLeaveRequest, hfind]
    rw [if_neg hrid]
  have hfind1 : (L.updateReq d.requestId
        (resubmitWriter upload uploadMulti d)).findRequestRow d.requestId =
      some (resubmitWriter upload uploadMulti d r) := by
    rw [findRequestRow_updateReq L d.requestId d.requestId
      (resubmitWriter upload uploadMulti d) hfid, if_pos rfl, hfind]
    rfl
  refine ⟨by rw [hObs], by rw [hObs]; exact hfind1, rfl, rfl, rfl, rfl, rfl, rfl, rfl,
    rfl, rfl, ?_⟩
  have hObs2 : updateLeaveRequest upload uploadMulti d
      (L.updateReq d.requestId (resubmitWriter upload uploadMulti d)) =
      (.success, (L.updateReq d.requestId
        (resubmitWriter upload uploadMulti d)).updateReq d.requestId
        (resubmitWriter upload uploadMulti d)) := by
    simp only [updateLeaveRequest, hfind1]
    rw [if_neg hrid]
  have hw : resubmitWriter upload uploadMulti d
      (resubmitWriter upload uploadMulti d r) = resubmitWriter upload uploadMulti d r :=
    rfl
  rw [hObs, hObs2, updateReq_eq_self hfind1 hw]

/-- An approved, already-decided Leave request used by the resubmit and
transition scenarios. -/
def approvedRow : Row :=
  { baseRow with
    requestId := "REQ-200"
    employeeId := "E2"
    leaveType := LEAVE_SHEET_NAME
    status := "Approved"
    approver := "Admin"
    approvalTimestamp := some 900
    adminCheckinNote := "note" }

/-- Ledger holding `approvedRow` in the Leave partition. -/
def approvedLedger : Ledger :=
  { permission := [], leave := [approvedRow], homeLeave := [] }

/-- The resubmission payload aimed at `approvedRow`. -/
def resubmitDetails : UpdateDetails :=
  { requestId := "REQ-200"
    employeeId := "E2"
    employeeName := "Dara"
    leaveType := LEAVE_SHEET_NAME
    startDate := 19860 * 1440
    endDate := 19860 * 1440
    numberOfDays := .str "1"
    reason := "edited"
    selfieImageData := ""
    documentImageData := "" }

/-- The blob store used in concrete scenarios: a stub returning a fixed
URL (the store is an external collaborator; any function works). -/
def stubUpload : String → String → String := fun _ _ => "url"

/-- C8 witness: resubmitting the approved request `REQ-200` succeeds,
resets it to `Pending` with cleared approval columns and the new fields,
and a second identical call reproduces the same stored ledger. -/
theorem updateLeaveRequest_spec_w :
    (updateLeaveRequest stubUpload stubUpload resubmitDetails approvedLedger).1 =
      .success ∧
    (updateLeaveRequest stubUpload stubUpload resubmitDetails
        approvedLedger).2.findRequestRow "REQ-200" =
      some (resubmitWriter stubUpload stubUpload resubmitDetails approvedRow) ∧
    (resubmitWriter stubUpload stubUpload resubmitDetails approvedRow).status =
      "Pending" ∧
    updateLeaveRequest stubUpload stubUpload resubmitDetails
        (updateLeaveRequest stubUpload stubUpload resubmitDetails approvedLedger).2 =
      (.success,
        (updateLeaveRequest stubUpload stubUpload resubmitDetails approvedLedger).2) := by
  have h := updateLeaveRequest_spec stubUpload stubUpload resubmitDetails
    approvedLedger approvedRow (by decide) (by decide)
  exact ⟨h.1, h.2.1, h.2.2.1, h.2.2.2.2.2.2.2.2.2.2.2⟩

-- --- Check-in observations shared by the check-in claims ---

theorem submitCheckIn_success_obs (upload : String → String → String)
    (d : CheckInData) (now : Nat) (L : Ledger) (r : Row)
    (h1 : d.requestId ≠ "") (h2 : d.selfieData ≠ "")
    (h3 : d.latitude ≠ 0) (h4 : d.longitude ≠ 0)
    (hfind : L.findRequestRow d.requestId = some r) :
    submitCheckIn upload true d now L =
      (.success, L.updateReq d.requestId (checkInWriter upload d r.employeeId now)) := by
  simp only [submitCheckIn, hfind]
  rw [if_neg (by simp [h1, h2]), if_neg (by simp [h3, h4]), if_neg (by simp)]

theorem adminSubmitCheckIn_success_obs (rid role : String) (now : Nat)
    (L : Ledger) (r : Row) (h1 : rid ≠ "") (h2 : role ≠ "")
    (hfind : L.findRequestRow rid = some r) :
    adminSubmitCheckIn rid role now L =
      (.success, L.updateReq rid (adminCheckInWriter role now)) := by
  simp only [adminSubmitCheckIn, hfind]
  rw [if_neg (by simp [h1, h2])]

theorem findRequestRow_after_checkInWriter (upload : String → String → String)
    (d : CheckInData) (emp : String) (now : Nat) (L : Ledger) (r : Row)
    (hfind : L.findRequestRow d.requestId = some r) :
    (L.updateReq d.requestId (checkInWriter upload d emp now)).findRequestRow
        d.requestId = some (checkInWriter upload d emp now r) := by
  rw [findRequestRow_updateReq L d.requestId d.requestId
    (checkInWriter upload d emp now) (fun x => rfl), if_pos rfl, hfind]
  rfl

theorem findRequestRow_after_adminCheckInWriter (rid role : String) (now : Nat)
    (L : Ledger) (r : Row) (hfind : L.findRequestRow rid = some r) :
    (L.updateReq rid (adminCheckInWriter role now)).findRequestRow rid =
      some (adminCheckInWriter role now r) := by
  rw [findRequestRow_updateReq L rid rid (adminCheckInWriter role now) (fun x => rfl),
    if_pos rfl, hfind]
  rfl

-- --- C10: check-in ignores the request's status ---

/-- C10: neither check-in path reads the request's status: for every
located request — whatever its status field holds, `Pending` and
`Rejected` included — valid location and photo inputs make the employee
path (and valid arguments the admin path) write the check-in timestamp
and report success. -/
theorem checkIn_ignoresStatus (upload : String → String → String)
    (d : CheckInData) (rid role : String) (now : Nat) (L : Ledger) (r : Row) :
    (d.requestId ≠ "" → d.selfieData ≠ "" → d.latitude ≠ 0 → d.longitude ≠ 0 →
      L.findRequestRow d.requestId = some r →
      (submitCheckIn upload true d now L).1 = .success ∧
      (submitCheckIn upload true d now L).2.findRequestRow d.requestId =
        some (checkInWriter upload d r.employeeId now r) ∧
      (checkInWriter upload d r.employeeId now r).checkInTimestamp = some now ∧
      (checkInWriter upload d r.employeeId now r).status = r.status) ∧
    (rid ≠ "" → role ≠ "" → L.findRequestRow rid = some r →
      (adminSubmitCheckIn rid role now L).1 = .success ∧
      (adminSubmitCheckIn rid role now L).2.findRequestRow rid =
        some (adminCheckInWriter role now r) ∧
      (adminCheckInWriter role now r).checkInTimestamp = some now ∧
      (adminCheckInWriter role now r).status = r.status) := by
  constructor
  · intro h1 h2 h3 h4 hfind
    have hObs := submitCheckIn_success_obs upload d now L r h1 h2 h3 h4 hfind
    refine ⟨by rw [hObs], ?_, rfl, rfl⟩
    rw [hObs]
    exact findRequestRow_after_checkInWriter upload d r.employeeId now L r hfind
  · intro h1 h2 hfind
    have hObs := adminSubmitCheckIn_success_obs rid role now L r h1 h2 hfind
    refine ⟨by rw [hObs], ?_, rfl, rfl⟩
    rw [hObs]
    exact findRequestRow_after_adminCheckInWriter rid role now L r hfind

/-- Employee check-in payload aimed at the Pending request `REQ-100`. -/
def pendingCheckInData : CheckInData :=
  { requestId := "REQ-100", selfieData := "data:image/jpeg", latitude := 1, longitude := 1 }

/-- A rejected Permission request. -/
def rejectedRow : Row :=
  { baseRow with
    requestId := "REQ-400"
    employeeId := "E4"
    leaveType := PERMISSION_SHEET_NAME
    status := "Rejected"
    adminCheckinNote := "no" }

/-- Ledger holding the rejected request. -/
def rejectedLedger : Ledger :=
  { permission := [rejectedRow], leave := [], homeLeave := [] }

/-- C10 witness: the employee path checks a `Pending` request in and the
admin path checks a `Rejected` request in; both succeed and set the
check-in timestamp. -/
theorem checkIn_ignoresStatus_w :
    (submitCheckIn stubUpload true pendingCheckInData 500 pendingLedger).1 =
      .success ∧
    (submitCheckIn stubUpload true pendingCheckInData 500
        pendingLedger).2.findRequestRow "REQ-100" =
      some (checkInWriter stubUpload pendingCheckInData "E9" 500 pendingRow) ∧
    (adminSubmitCheckIn "REQ-400" "Boss" 600 rejectedLedger).1 = .success ∧
    (adminSubmitCheckIn "REQ-400" "Boss" 600 rejectedLedger).2.findRequestRow
        "REQ-400" =
      some (adminCheckInWriter "Boss" 600 rejectedRow) := by
  have h1 := (checkIn_ignoresStatus stubUpload pendingCheckInData "REQ-400" "Boss"
    500 pendingLedger pendingRow).1 (by decide) (by decide) one_ne_zero one_ne_zero
    (by decide)
  have h2 := (checkIn_ignoresStatus stubUpload pendingCheckInData "REQ-400" "Boss"
    600 rejectedLedger rejectedRow).2 (by decide) (by decide) (by decide)
  exact ⟨h1.1, h1.2.1, h2.1, h2.2.1⟩

-- --- C4: check-in is not write-once ---

/-- An approved Permission request already checked in at minute 100. -/
def checkedInRow : Row :=
  { baseRow with
    requestId := "REQ-300"
    employeeId := "E3"
    leaveType := PERMISSION_SHEET_NAME
    status := "Approved"
    approvalTimestamp := some 90
    checkInTimestamp := some 100
    checkInPhotoUrl := "oldPhoto"
    checkInLocationLink := "oldLocation" }

/-- Ledger holding the already-checked-in request. -/
def checkedInLedger : Ledger :=
  { permission := [checkedInRow], leave := [], homeLeave := [] }

/-- A second employee check-in attempt aimed at `REQ-300`. -/
def secondCheckInData : CheckInData :=
  { requestId := "REQ-300", selfieData := "data:image/jpeg", latitude := 1, longitude := 1 }

/-- C4 counterexample: the claim says a check-in attempt on a request
that already carries a check-in timestamp leaves the stored fields
unchanged and is reported as already-checked-in; in fact neither path
reads the existing timestamp — a second attempt at minute 200 on
`REQ-300` (checked in at minute 100) succeeds and overwrites the
timestamp and photo (no already-checked-in result exists in the code). -/
theorem submitCheckIn_cex :
    checkedInRow.checkInTimestamp = some 100 ∧
    checkedInLedger.findRequestRow "REQ-300" = some checkedInRow ∧
    (submitCheckIn stubUpload true secondCheckInData 200 checkedInLedger).1 =
      .success ∧
    ((submitCheckIn stubUpload true secondCheckInData 200
        checkedInLedger).2.findRequestRow "REQ-300").map Row.checkInTimestamp =
      some (some 200) ∧
    ((submitCheckIn stubUpload true secondCheckInData 200
        checkedInLedger).2.findRequestRow "REQ-300").map Row.checkInPhotoUrl =
      some "url" := by
  have hq : secondCheckInData.requestId = "REQ-300" := rfl
  have hfind : checkedInLedger.findRequestRow secondCheckInData.requestId =
      some checkedInRow := by decide
  have hObs := submitCheckIn_success_obs stubUpload secondCheckInData 200
    checkedInLedger checkedInRow (by decide) (by decide) one_ne_zero one_ne_zero hfind
  have hfr := findRequestRow_after_checkInWriter stubUpload secondCheckInData
    checkedInRow.employeeId 200 checkedInLedger checkedInRow hfind
  rw [hq] at hObs hfr hfind
  refine ⟨rfl, hfind, by rw [hObs], ?_, ?_⟩
  · rw [hObs, hfr]
    rfl
  · rw [hObs, hfr]
    rfl

/-- C4 (amended): `checkInTimestamp` is not write-once — neither path
inspects an existing check-in: on a request already checked in at `t0`,
a second employee attempt (valid inputs) or admin attempt succeeds and
overwrites the stored check-in fields with the new values (last writer
wins); no already-checked-in result exists. -/
theorem checkIn_overwrites (upload : String → String → String)
    (d : CheckInData) (rid role : String) (now t0 : Nat) (L : Ledger) (r : Row) :
    (d.requestId ≠ "" → d.selfieData ≠ "" → d.latitude ≠ 0 → d.longitude ≠ 0 →
      L.findRequestRow d.requestId = some r → r.checkInTimestamp = some t0 →
      (submitCheckIn upload true d now L).1 = .success ∧
      ((submitCheckIn upload true d now L).2.findRequestRow d.requestId).map
        Row.checkInTimestamp = some (some now) ∧
      ((submitCheckIn upload true d now L).2.findRequestRow d.requestId).map
        Row.checkInPhotoUrl =
        some (upload d.selfieData ("CheckIn_" ++ r.employeeId ++ "_" ++ d.requestId))) ∧
    (rid ≠ "" → role ≠ "" → L.findRequestRow rid = some r →
      r.checkInTimestamp = some t0 →
      (adminSubmitCheckIn rid role now L).1 = .success ∧
      ((adminSubmitCheckIn rid role now L).2.findRequestRow rid).map
        Row.checkInTimestamp = some (some now) ∧
      ((adminSubmitCheckIn rid role now L).2.findRequestRow rid).map
        Row.adminCheckinNote = some ("Checked in by: " ++ role)) := by
  constructor
  · intro h1 h2 h3 h4 hfind hprev
    have hObs := submitCheckIn_success_obs upload d now L r h1 h2 h3 h4 hfind
    have hfr := findRequestRow_after_checkInWriter upload d r.employeeId now L r hfind
    refine ⟨by rw [hObs], ?_, ?_⟩
    · rw [hObs, hfr]
      rfl
    · rw [hObs, hfr]
      rfl
  · intro h1 h2 hfind hprev
    have hObs := adminSubmitCheckIn_success_obs rid role now L r h1 h2 hfind
    have hfr := findRequestRow_after_adminCheckInWriter rid role now L r hfind
    refine ⟨by rw [hObs], ?_, ?_⟩
    · rw [hObs, hfr]
      rfl
    · rw [hObs, hfr]
      rfl

/-- C4 witness: both paths re-check-in the already-checked-in `REQ-300`
at minute 250, overwriting the stored fields. -/
theorem checkIn_overwrites_w :
    (submitCheckIn stubUpload true secondCheckInData 250 checkedInLedger).1 =
      .success ∧
    ((submitCheckIn stubUpload true secondCheckInData 250
        checkedInLedger).2.findRequestRow "REQ-300").map Row.checkInTimestamp =
      some (some 250) ∧
    (adminSubmitCheckIn "REQ-300" "Boss" 250 checkedInLedger).1 = .success ∧
    ((adminSubmitCheckIn "REQ-300" "Boss" 250 checkedInLedger).2.findRequestRow
        "REQ-300").map Row.adminCheckinNote = some "Checked in by: Boss" := by
  have h := checkIn_overwrites stubUpload secondCheckInData "REQ-300" "Boss" 250 100
    checkedInLedger checkedInRow
  have h1 := h.1 (by decide) (by decide) one_ne_zero one_ne_zero (by decide) rfl
  have h2 := h.2 (by decide) (by decide) (by decide) rfl
  exact ⟨h1.1, h1.2.1, h2.1, h2.2.2⟩

-- --- Scanner observations shared by the escalation claims ---

theorem scanSingle (now : Nat) (r : Row) :
    checkForOverdueCheckIns now [r] =
      ((processOverdueRow now r).1.toList, [(processOverdueRow now r).2]) := by
  cases h : (processOverdueRow now r).1 <;>
    simp [checkForOverdueCheckIns, List.filterMap, h]

theorem processOverdueRow_skip (now : Nat) (r : Row)
    (h : r.checkInTimestamp.isSome ∨ r.status ≠ "Approved") :
    processOverdueRow now r = (none, r) := by
  rw [processOverdueRow, if_pos h]

theorem processOverdueRow_half_notArmed (now : Nat) (r : Row)
    (hdur : getNumericDayValue r.dayValue = 1/2)
    (harm : ∀ a, r.approvalTimestamp = some a → dayStart r.startDate + 511 ≤ a) :
    processOverdueRow now r = (none, r) := by
  by_cases hskip : r.checkInTimestamp.isSome ∨ r.status ≠ "Approved"
  · exact processOverdueRow_skip now r hskip
  · cases ha : r.approvalTimestamp with
    | none =>
      simp only [processOverdueRow, ha]
      rw [if_neg hskip, if_pos hdur]
    | some a =>
      simp only [processOverdueRow, ha]
      rw [if_neg hskip, if_pos hdur, if_neg (Nat.not_lt.2 (harm a ha))]

theorem processOverdueRow_half_tier1 (now : Nat) (r : Row) (a : Nat)
    (hs : r.status = "Approved") (hc : r.checkInTimestamp = none)
    (hdur : getNumericDayValue r.dayValue = 1/2)
    (ha : r.approvalTimestamp = some a) (harm : a < dayStart r.startDate + 511)
    (hnow : dayStart r.startDate + 690 < now) (hmark : r.notificationSent = "") :
    processOverdueRow now r =
      (some .halfDay1, { r with notificationSent := "OverdueHalfDay_1" }) := by
  simp only [processOverdueRow, ha]
  rw [if_neg (by simp [hs, hc]), if_pos hdur, if_pos harm,
    if_neg (fun hcon => by rw [hmark] at hcon; exact absurd hcon.2 (by decide)),
    if_pos ⟨hnow, hmark⟩]

theorem processOverdueRow_half_tier2 (now : Nat) (r : Row) (a : Nat)
    (hs : r.status = "Approved") (hc : r.checkInTimestamp = none)
    (hdur : getNumericDayValue r.dayValue = 1/2)
    (ha : r.approvalTimestamp = some a) (harm : a < dayStart r.startDate + 511)
    (hnow : dayStart r.startDate + 870 < now)
    (hmark : r.notificationSent = "OverdueHalfDay_1") :
    processOverdueRow now r =
      (some .halfDay2, { r with notificationSent := "OverdueHalfDay_2" }) := by
  simp only [processOverdueRow, ha]
  rw [if_neg (by simp [hs, hc]), if_pos hdur, if_pos harm, if_pos ⟨hnow, hmark⟩]

theorem processOverdueRow_full_overdueTime (now : Nat) (r : Row)
    (hs : r.status = "Approved") (hc : r.checkInTimestamp = none)
    (hdur : ¬ getNumericDayValue r.dayValue = 1/2)
    (hmark : r.notificationSent = "")
    (h1 : dayStart r.startDate + 1080 < now) (h2 : now < dayStart r.startDate + 1740) :
    processOverdueRow now r =
      (some .overdueTime, { r with notificationSent := "OverdueTime" }) := by
  rw [processOverdueRow, if_neg (by simp [hs, hc]), if_neg hdur,
    if_neg (fun hcon => absurd hcon.1 (by omega)), if_pos ⟨h1, h2, hmark⟩]

theorem processOverdueRow_full_overdueDay (now : Nat) (r : Row)
    (hs : r.status = "Approved") (hc : r.checkInTimestamp = none)
    (hdur : ¬ getNumericDayValue r.dayValue = 1/2)
    (hmark : r.notificationSent ≠ "OverdueDay")
    (hnow : dayStart r.startDate + 1740 < now) :
    processOverdueRow now r =
      (some .overdueDay, { r with notificationSent := "OverdueDay" }) := by
  rw [processOverdueRow, if_neg (by simp [hs, hc]), if_neg hdur, if_pos ⟨hnow, hmark⟩]

theorem processOverdueRow_full_marked_none (now : Nat) (r : Row)
    (hdur : ¬ getNumericDayValue r.dayValue = 1/2)
    (hmark : r.notificationSent ≠ "")
    (hnow : now ≤ dayStart r.startDate + 1740) :
    processOverdueRow now r = (none, r) := by
  by_cases hskip : r.checkInTimestamp.isSome ∨ r.status ≠ "Approved"
  · exact processOverdueRow_skip now r hskip
  · rw [processOverdueRow, if_neg hskip, if_neg hdur,
      if_neg (fun hcon => absurd hcon.1 (by omega)),
      if_neg (fun hcon => absurd hcon.2.2 hmark)]

-- --- C9: half-day escalation track ---

/-- C9: on a half-day row the scanner escalates only when the recorded
approval precedes 08:31 on the start date — with a missing or 08:31-or-
later approval no half-day escalation ever fires and the row is left
unchanged; when armed, a run after 11:30 with no mark yet emits exactly
one `HalfDay1` and writes the mark, and a run after 14:30 on the mark
`HalfDay1` emits exactly one `HalfDay2`. -/
theorem halfDayEscalation_spec (r : Row) (now a : Nat) :
    (getNumericDayValue r.dayValue = 1/2 →
      (∀ b, r.approvalTimestamp = some b → dayStart r.startDate + 511 ≤ b) →
      processOverdueRow now r = (none, r)) ∧
    (r.status = "Approved" → r.checkInTimestamp = none →
      getNumericDayValue r.dayValue = 1/2 →
      r.approvalTimestamp = some a → a < dayStart r.startDate + 511 →
      dayStart r.startDate + 690 < now → r.notificationSent = "" →
      checkForOverdueCheckIns now [r] =
        ([.halfDay1], [{ r with notificationSent := "OverdueHalfDay_1" }])) ∧
    (r.status = "Approved" → r.checkInTimestamp = none →
      getNumericDayValue r.dayValue = 1/2 →
      r.approvalTimestamp = some a → a < dayStart r.startDate + 511 →
      dayStart r.startDate + 870 < now → r.notificationSent = "OverdueHalfDay_1" →
      checkForOverdueCheckIns now [r] =
        ([.halfDay2], [{ r with notificationSent := "OverdueHalfDay_2" }])) := by
  refine ⟨?_, ?_, ?_⟩
  · intro hdur harm
    exact processOverdueRow_half_notArmed now r hdur harm
  · intro hs hc hdur ha harm hnow hmark
    rw [scanSingle, processOverdueRow_half_tier1 now r a hs hc hdur ha harm hnow hmark]
    rfl
  · intro hs hc hdur ha harm hnow hmark
    rw [scanSingle, processOverdueRow_half_tier2 now r a hs hc hdur ha harm hnow hmark]
    rfl

/-- An armed half-day Permission request: approved 08:20 on the start
date, duration the morning half-day token, no check-in, no mark yet. -/
def halfRow : Row :=
  { baseRow with
    requestId := "REQ-500"
    employeeId := "E5"
    leaveType := PERMISSION_SHEET_NAME
    status := "Approved"
    startDate := 19844 * 1440
    dayValue := .str "មួយព្រឹក"
    approvalTimestamp := some (19844 * 1440 + 500)
    notificationSent := "" }

/-- The armed half-day row after its first escalation. -/
def halfRowT1 : Row :=
  { halfRow with notificationSent := "OverdueHalfDay_1" }

/-- The half-day row approved at exactly 08:31 — not armed. -/
def lateApprovedHalfRow : Row :=
  { halfRow with approvalTimestamp := some (19844 * 1440 + 511) }

theorem lateApprovedHalfRow_bound :
    ∀ b, lateApprovedHalfRow.approvalTimestamp = some b →
      dayStart lateApprovedHalfRow.startDate + 511 ≤ b := by
  intro b hb
  have h : (19844 * 1440 + 511 : Nat) = b := Option.some.inj hb
  subst h
  decide

/-- C9 witness: the 08:31 approval never escalates (run at 15:00); the
08:20 approval escalates `HalfDay1` at 11:40 and, once marked,
`HalfDay2` at 15:00. -/
theorem halfDayEscalation_spec_w :
    processOverdueRow (19844 * 1440 + 900) lateApprovedHalfRow =
      (none, lateApprovedHalfRow) ∧
    checkForOverdueCheckIns (19844 * 1440 + 700) [halfRow] =
      ([.halfDay1], [{ halfRow with notificationSent := "OverdueHalfDay_1" }]) ∧
    checkForOverdueCheckIns (19844 * 1440 + 900) [halfRowT1] =
      ([.halfDay2], [{ halfRowT1 with notificationSent := "OverdueHalfDay_2" }]) :=
  ⟨(halfDayEscalation_spec lateApprovedHalfRow (19844 * 1440 + 900) 0).1 rfl
      lateApprovedHalfRow_bound,
   (halfDayEscalation_spec halfRow (19844 * 1440 + 700) (19844 * 1440 + 500)).2.1
      rfl rfl rfl rfl (by decide) (by decide) rfl,
   (halfDayEscalation_spec halfRowT1 (19844 * 1440 + 900) (19844 * 1440 + 500)).2.2
      rfl rfl rfl rfl (by decide) (by decide) rfl⟩

-- --- C3: full-day escalation track ---

theorem tierRank_le_four (s : String) : tierRank s ≤ 4 := by
  unfold tierRank
  split_ifs <;> omega

/-- C3 (amended): for a full-day Approved Permission row with no
check-in and no mark, a run after 18:00 on the start date emits exactly
one `OverdueTime` and writes the mark; any later run up to the next-day
05:00 deadline emits nothing further; a run after that deadline emits
exactly one `OverdueDay`; once `OverdueDay` is recorded no scanner run
ever emits anything for the row (a full-day row carrying the half-day
mark `HalfDay2` — possible only if the duration was edited after a
half-day escalation — still fires `OverdueDay` once); and the recorded
mark never regresses along the tier order. -/
theorem fullDayEscalation_spec (r : Row) (now1 : Nat) :
    (r.status = "Approved" → r.checkInTimestamp = none →
      getNumericDayValue r.dayValue ≠ 1/2 → r.notificationSent = "" →
      dayStart r.startDate + 1080 < now1 → now1 < dayStart r.startDate + 1440 →
      checkForOverdueCheckIns now1 [r] =
        ([.overdueTime], [{ r with notificationSent := "OverdueTime" }]) ∧
      (∀ now2, now2 ≤ dayStart r.startDate + 1740 →
        checkForOverdueCheckIns now2 [{ r with notificationSent := "OverdueTime" }] =
          ([], [{ r with notificationSent := "OverdueTime" }])) ∧
      (∀ now3, dayStart r.startDate + 1740 < now3 →
        checkForOverdueCheckIns now3 [{ r with notificationSent := "OverdueTime" }] =
          ([.overdueDay], [{ r with notificationSent := "OverdueDay" }]))) ∧
    (∀ now r2, r2.notificationSent = "OverdueDay" →
      processOverdueRow now r2 = (none, r2)) ∧
    (∀ now r2, tierRank r2.notificationSent ≤
      tierRank (processOverdueRow now r2).2.notificationSent) := by
  refine ⟨?_, ?_, ?_⟩
  · intro hs hc hdur hmark h18 hday
    refine ⟨?_, ?_, ?_⟩
    · rw [scanSingle,
        processOverdueRow_full_overdueTime now1 r hs hc hdur hmark h18 (by omega)]
      rfl
    · intro now2 h2
      rw [scanSingle, processOverdueRow_full_marked_none now2
        { r with notificationSent := "OverdueTime" } hdur
        ((by decide : ("OverdueTime" : String) ≠ "")) h2]
      rfl
    · intro now3 h3
      rw [scanSingle, processOverdueRow_full_overdueDay now3
        { r with notificationSent := "OverdueTime" } hs hc hdur
        ((by decide : ("OverdueTime" : String) ≠ "OverdueDay")) h3]
      rfl
  · intro now r2 hmark
    by_cases hskip : r2.checkInTimestamp.isSome ∨ r2.status ≠ "Approved"
    · exact processOverdueRow_skip now r2 hskip
    · by_cases hdur : getNumericDayValue r2.dayValue = 1/2
      · cases ha : r2.approvalTimestamp with
        | none =>
          simp only [processOverdueRow, ha]
          rw [if_neg hskip, if_pos hdur]
        | some b =>
          by_cases harm : b < dayStart r2.startDate + 511
          · simp only [processOverdueRow, ha]
            rw [if_neg hskip, if_pos hdur, if_pos harm,
              if_neg (fun hcon => by rw [hmark] at hcon; exact absurd hcon.2 (by decide)),
              if_neg (fun hcon => by rw [hmark] at hcon; exact absurd hcon.2 (by decide))]
          · simp only [processOverdueRow, ha]
            rw [if_neg hskip, if_pos hdur, if_neg harm]
      · rw [processOverdueRow, if_neg hskip, if_neg hdur,
          if_neg (fun hcon => hcon.2 hmark),
          if_neg (fun hcon => by rw [hmark] at hcon; exact absurd hcon.2.2 (by decide))]
  · intro now r2
    by_cases hskip : r2.checkInTimestamp.isSome ∨ r2.status ≠ "Approved"
    · rw [processOverdueRow_skip now r2 hskip]
    · by_cases hdur : getNumericDayValue r2.dayValue = 1/2
      · cases ha : r2.approvalTimestamp with
        | none =>
          simp only [processOverdueRow, ha]
          rw [if_neg hskip, if_pos hdur]
        | some b =>
          by_cases harm : b < dayStart r2.startDate + 511
          · by_cases h1 : now > dayStart r2.startDate + 870 ∧
                r2.notificationSent = "OverdueHalfDay_1"
            · simp only [processOverdueRow, ha]
              rw [if_neg hskip, if_pos hdur, if_pos harm, if_pos h1, h1.2]
              show tierRank "OverdueHalfDay_1" ≤ tierRank "OverdueHalfDay_2"
              decide
            · by_cases h2 : now > dayStart r2.startDate + 690 ∧ r2.notificationSent = ""
              · simp only [processOverdueRow, ha]
                rw [if_neg hskip, if_pos hdur, if_pos harm, if_neg h1, if_pos h2, h2.2]
                show tierRank "" ≤ tierRank "OverdueHalfDay_1"
                decide
              · simp only [processOverdueRow, ha]
                rw [if_neg hskip, if_pos hdur, if_pos harm, if_neg h1, if_neg h2]
          · simp only [processOverdueRow, ha]
            rw [if_neg hskip, if_pos hdur, if_neg harm]
      · by_cases h1 : now > dayStart r2.startDate + 1740 ∧
            r2.notificationSent ≠ "OverdueDay"
        · rw [processOverdueRow, if_neg hskip, if_neg hdur, if_pos h1]
          exact (tierRank_le_four _).trans
            ((by decide : (4 : Nat) ≤ tierRank "OverdueDay"))
        · by_cases h2 : now > dayStart r2.startDate + 1080 ∧
              now < dayStart r2.startDate + 1740 ∧ r2.notificationSent = ""
          · rw [processOverdueRow, if_neg hskip, if_neg hdur, if_neg h1, if_pos h2, h2.2.2]
            show tierRank "" ≤ tierRank "OverdueTime"
            decide
          · rw [processOverdueRow, if_neg hskip, if_neg hdur, if_neg h1, if_neg h2]

/-- A fresh full-day Approved Permission request on 2024-05-01 with no
check-in and no mark. -/
def fullRow : Row :=
  { baseRow with
    requestId := "REQ-550"
    employeeId := "E7"
    leaveType := PERMISSION_SHEET_NAME
    status := "Approved"
    startDate := 19844 * 1440
    dayValue := .str "1"
    approvalTimestamp := some (19844 * 1440 + 540)
    notificationSent := "" }

/-- The full-day row after its `OverdueTime` escalation. -/
def fullRowT : Row :=
  { fullRow with notificationSent := "OverdueTime" }

theorem fullRow_not_half : getNumericDayValue fullRow.dayValue ≠ 1/2 := by
  rw [show getNumericDayValue fullRow.dayValue = 1 from dayValue_one]
  norm_num

/-- C3 witness: the fresh row escalates exactly one `OverdueTime` at
19:00, the marked row emits nothing at 19:30, and emits exactly one
`OverdueDay` at 06:00 the next day. -/
theorem fullDayEscalation_spec_w :
    checkForOverdueCheckIns (19844 * 1440 + 1140) [fullRow] =
      ([.overdueTime], [fullRowT]) ∧
    checkForOverdueCheckIns (19844 * 1440 + 1170) [fullRowT] = ([], [fullRowT]) ∧
    checkForOverdueCheckIns (19844 * 1440 + 1800) [fullRowT] =
      ([.overdueDay], [{ fullRow with notificationSent := "OverdueDay" }]) := by
  have h := (fullDayEscalation_spec fullRow (19844 * 1440 + 1140)).1 rfl rfl
    fullRow_not_half rfl (by decide) (by decide)
  exact ⟨h.1, h.2.1 (19844 * 1440 + 1170) (by decide),
    h.2.2 (19844 * 1440 + 1800) (by decide)⟩

/-- A full-day Approved Permission row carrying the half-day mark
`OverdueHalfDay_2` (its duration was edited to a full day after a
half-day escalation; resubmission does not clear the mark column). -/
def overdueCexRow : Row :=
  { baseRow with
    requestId := "REQ-600"
    employeeId := "E6"
    leaveType := PERMISSION_SHEET_NAME
    status := "Approved"
    startDate := 19844 * 1440
    dayValue := .str "1"
    approvalTimestamp := some (19844 * 1440 + 500)
    notificationSent := "OverdueHalfDay_2" }

/-- C3 counterexample: the claim says that once `OverdueDay` or
`HalfDay2` is recorded no scanner run ever emits another escalation for
the request; but a full-day Approved row with no check-in whose recorded
mark is `OverdueHalfDay_2` still emits an `OverdueDay` escalation on a
run after the next-day 05:00 deadline. -/
theorem fullDayEscalation_cex :
    overdueCexRow.notificationSent = "OverdueHalfDay_2" ∧
    overdueCexRow.status = "Approved" ∧
    overdueCexRow.checkInTimestamp = none ∧
    getNumericDayValue overdueCexRow.dayValue ≠ 1/2 ∧
    (checkForOverdueCheckIns (19844 * 1440 + 1800) [overdueCexRow]).1 =
      [Tier.overdueDay] := by
  have hdur : getNumericDayValue overdueCexRow.dayValue ≠ 1/2 := by
    rw [show getNumericDayValue overdueCexRow.dayValue = 1 from dayValue_one]
    norm_num
  have hproc := processOverdueRow_full_overdueDay (19844 * 1440 + 1800) overdueCexRow
    rfl rfl hdur (by decide) (by decide)
  refine ⟨rfl, rfl, rfl, hdur, ?_⟩
  rw [scanSingle, hproc]
  rfl

-- --- C2: status transitions ---

/-- C2 counterexample: the claim says no operation moves a request out
of `Approved` or `Rejected`, including resubmit among the operations —
but resubmitting the approved request `REQ-200` moves its status from
`Approved` back to `Pending`. -/
theorem status_transitions_cex :
    (approvedLedger.findRequestRow "REQ-200").map Row.status = some "Approved" ∧
    ((applyOp stubUpload stubUpload (Op.resubmit resubmitDetails)
        approvedLedger).findRequestRow "REQ-200").map Row.status = some "Pending" :=
  ⟨rfl, rfl⟩

/-- C2 (amended): under unique request ids (and a fresh generated id for
a submission), every operation other than resubmit preserves the status
of every request still present — the only status change a non-resubmit
operation can make is `Pending` to `Approved` or `Rejected` (by decide);
resubmit instead forces the status of its located request to `Pending`
whatever it was before. -/
theorem status_transitions (upload uploadMulti : String → String → String)
    (op : Op) (L : Ledger) (rid : String) (r r2 : Row) :
    (L.uniqueIds → op.freshFor L → op.isResubmit = false →
      L.findRequestRow rid = some r →
      (applyOp upload uploadMulti op L).findRequestRow rid = some r2 →
      r2.status = r.status ∨
        (r.status = "Pending" ∧ (r2.status = "Approved" ∨ r2.status = "Rejected"))) ∧
    (∀ d, d.requestId ≠ "" → L.findRequestRow d.requestId = some r →
      ((applyOp upload uploadMulti (Op.resubmit d) L).findRequestRow d.requestId).map
        Row.status = some "Pending") := by
  constructor
  · intro hU hFresh hNR hfind hfind2
    cases op with
    | submit d now =>
      by_cases hemp : d.employeeId = ""
      · simp only [applyOp, submitLeaveRequest] at hfind2
        rw [if_pos hemp] at hfind2
        rw [hfind] at hfind2
        exact Or.inl (congrArg Row.status (Option.some.inj hfind2)).symm
      · have hne : (submitRow upload uploadMulti d now).requestId ≠ rid := by
          intro hc
          have hmem := findRequestRow_mem_allIds hfind
          rw [← hc] at hmem
          exact hFresh hmem
        simp only [applyOp, submitLeaveRequest] at hfind2
        rw [if_neg hemp] at hfind2
        rw [findRequestRow_appendRow L d.cat (submitRow upload uploadMulti d now)
          rid hne] at hfind2
        rw [hfind] at hfind2
        exact Or.inl (congrArg Row.status (Option.some.inj hfind2)).symm
    | decide rid0 o approver reason now =>
      by_cases hg : rid0 = "" ∨ Outcome.status o = ""
      · simp only [applyOp, updateRequestStatus] at hfind2
        rw [if_pos hg] at hfind2
        rw [hfind] at hfind2
        exact Or.inl (congrArg Row.status (Option.some.inj hfind2)).symm
      · cases hf0 : L.findRequestRow rid0 with
        | none =>
          simp only [applyOp, updateRequestStatus, hf0] at hfind2
          rw [if_neg hg] at hfind2
          rw [hfind] at hfind2
          exact Or.inl (congrArg Row.status (Option.some.inj hfind2)).symm
        | some r0 =>
          by_cases hst : r0.status ≠ "Pending"
          · simp only [applyOp, updateRequestStatus, hf0] at hfind2
            rw [if_neg hg, if_pos hst] at hfind2
            rw [hfind] at hfind2
            exact Or.inl (congrArg Row.status (Option.some.inj hfind2)).symm
          · simp only [applyOp, updateRequestStatus, hf0] at hfind2
            rw [if_neg hg, if_neg hst] at hfind2
            rw [findRequestRow_updateReq L rid rid0
              (decideWriter o.status approver reason now) (fun x => rfl)] at hfind2
            by_cases hr : rid = rid0
            · subst hr
              rw [if_pos rfl, hf0] at hfind2
              have hrr : r = r0 := Option.some.inj (hfind.symm.trans hf0)
              have hr2 : r2 = decideWriter o.status approver reason now r0 :=
                (Option.some.inj hfind2).symm
              right
              refine ⟨by rw [hrr]; exact not_ne_iff.1 hst, ?_⟩
              rw [hr2]
              cases o with
              | approved => exact Or.inl rfl
              | rejected => exact Or.inr rfl
            · rw [if_neg hr] at hfind2
              rw [hfind] at hfind2
              exact Or.inl (congrArg Row.status (Option.some.inj hfind2)).symm
    | resubmit d => cases hNR
    | checkIn d wr now =>
      by_cases hg1 : d.requestId = "" ∨ d.selfieData = ""
      · simp only [applyOp, submitCheckIn] at hfind2
        rw [if_pos hg1] at hfind2
        rw [hfind] at hfind2
        exact Or.inl (congrArg Row.status (Option.some.inj hfind2)).symm
      · by_cases hg2 : d.latitude = 0 ∨ d.longitude = 0
        · simp only [applyOp, submitCheckIn] at hfind2
          rw [if_neg hg1, if_pos hg2] at hfind2
          rw [hfind] at hfind2
          exact Or.inl (congrArg Row.status (Option.some.inj hfind2)).symm
        · by_cases hg3 : ¬ wr = true
          · simp only [applyOp, submitCheckIn] at hfind2
            rw [if_neg hg1, if_neg hg2, if_pos hg3] at hfind2
            rw [hfind] at hfind2
            exact Or.inl (congrArg Row.status (Option.some.inj hfind2)).symm
          · cases hf0 : L.findRequestRow d.requestId with
            | none =>
              simp only [applyOp, submitCheckIn, hf0] at hfind2
              rw [if_neg hg1, if_neg hg2, if_neg hg3] at hfind2
              rw [hfind] at hfind2
              exact Or.inl (congrArg Row.status (Option.some.inj hfind2)).symm
            | some r0 =>
              simp only [applyOp, submitCheckIn, hf0] at hfind2
              rw [if_neg hg1, if_neg hg2, if_neg hg3] at hfind2
              rw [findRequestRow_updateReq L rid d.requestId
                (checkInWriter upload d r0.employeeId now) (fun x => rfl)] at hfind2
              by_cases hr : rid = d.requestId
              · subst hr
                rw [if_pos rfl, hf0] at hfind2
                have hrr : r = r0 := Option.some.inj (hfind.symm.trans hf0)
                have hr2 : r2 = checkInWriter upload d r0.employeeId now r0 :=
                  (Option.some.inj hfind2).symm
                refine Or.inl ?_
                rw [hr2, hrr]
                rfl
              · rw [if_neg hr] at hfind2
                rw [hfind] at hfind2
                exact Or.inl (congrArg Row.status (Option.some.inj hfind2)).symm
    | adminCheckIn rid0 role now =>
      by_cases hg1 : rid0 = "" ∨ role = ""
      · simp only [applyOp, adminSubmitCheckIn] at hfind2
        rw [if_pos hg1] at hfind2
        rw [hfind] at hfind2
        exact Or.inl (congrArg Row.status (Option.some.inj hfind2)).symm
      · cases hf0 : L.findRequestRow rid0 with
        | none =>
          simp only [applyOp, adminSubmitCheckIn, hf0] at hfind2
          rw [if_neg hg1] at hfind2
          rw [hfind] at hfind2
          exact Or.inl (congrArg Row.status (Option.some.inj hfind2)).symm
        | some r0 =>
          simp only [applyOp, adminSubmitCheckIn, hf0] at hfind2
          rw [if_neg hg1] at hfind2
          rw [findRequestRow_updateReq L rid rid0
            (adminCheckInWriter role now) (fun x => rfl)] at hfind2
          by_cases hr : rid = rid0
          · subst hr
            rw [if_pos rfl, hf0] at hfind2
            have hrr : r = r0 := Option.some.inj (hfind.symm.trans hf0)
            have hr2 : r2 = adminCheckInWriter role now r0 :=
              (Option.some.inj hfind2).symm
            refine Or.inl ?_
            rw [hr2, hrr]
            rfl
          · rw [if_neg hr] at hfind2
            rw [hfind] at hfind2
            exact Or.inl (congrArg Row.status (Option.some.inj hfind2)).symm
    | delete rid0 =>
      by_cases hg : rid0 = ""
      · simp only [applyOp, deleteLeaveRequest] at hfind2
        rw [if_pos hg] at hfind2
        rw [hfind] at hfind2
        exact Or.inl (congrArg Row.status (Option.some.inj hfind2)).symm
      · cases hf0 : L.findRequestRow rid0 with
        | none =>
          simp only [applyOp, deleteLeaveRequest, hf0] at hfind2
          rw [if_neg hg] at hfind2
          rw [hfind] at hfind2
          exact Or.inl (congrArg Row.status (Option.some.inj hfind2)).symm
        | some r0 =>
          simp only [applyOp, deleteLeaveRequest, hf0] at hfind2
          rw [if_neg hg] at hfind2
          by_cases hr : rid = rid0
          · subst hr
            rw [findRequestRow_deleteReq_self L rid hU] at hfind2
            cases hfind2
          · rw [findRequestRow_deleteReq_ne L rid rid0 hr] at hfind2
            rw [hfind] at hfind2
            exact Or.inl (congrArg Row.status (Option.some.inj hfind2)).symm
  · intro d hrid hfind
    have hObs : applyOp upload uploadMulti (Op.resubmit d) L =
        L.updateReq d.requestId (resubmitWriter upload uploadMulti d) := by
      simp only [applyOp, updateLeaveRequest, hfind]
      rw [if_neg hrid]
    rw [hObs, findRequestRow_updateReq L d.requestId d.requestId
      (resubmitWriter upload uploadMulti d) (fun x => rfl), if_pos rfl, hfind]
    rfl

/-- C2 witness: an admin check-in on the approved `REQ-200` leaves its
status unchanged, and resubmitting it forces the status to `Pending`. -/
theorem status_transitions_w :
    ((adminCheckInWriter "Boss" 700 approvedRow).status = approvedRow.status ∨
      (approvedRow.status = "Pending" ∧
        ((adminCheckInWriter "Boss" 700 approvedRow).status = "Approved" ∨
         (adminCheckInWriter "Boss" 700 approvedRow).status = "Rejected"))) ∧
    ((applyOp stubUpload stubUpload (Op.resubmit resubmitDetails)
        approvedLedger).findRequestRow "REQ-200").map Row.status = some "Pending" := by
  have h := status_transitions stubUpload stubUpload
    (Op.adminCheckIn "REQ-200" "Boss" 700) approvedLedger "REQ-200" approvedRow
    (adminCheckInWriter "Boss" 700 approvedRow)
  exact ⟨h.1 ((by decide : approvedLedger.allIds.Nodup)) trivial rfl rfl rfl,
    h.2 resubmitDetails (by decide) rfl⟩

/-- C5 witness: the concrete duplicate-guard scenario read off the
theorem. -/
theorem checkForDuplicateRequests_spec_w :
    checkForDuplicateRequests dupLedger "E123" (19844 * 1440 + 600)
      LEAVE_SHEET_NAME "" = true ∧
    checkForDuplicateRequests dupLedger "E123" (19844 * 1440 + 600)
      LEAVE_SHEET_NAME "REQ-7" = false :=
  ⟨checkForDuplicateRequests_spec.2.1, checkForDuplicateRequests_spec.2.2⟩

/-- C7 witness: the concrete monthly aggregate read off the theorem. -/
theorem getMonthlyLeaveStats_spec_w :
    getMonthlyLeaveStats statsLedger "E1" statsNow = ⟨3, 7/2, 2, 1⟩ :=
  getMonthlyLeaveStats_spec.2
